import Mathlib

/-! MediBot chat widget and service worker

A shallow embedding of `static/enhanced-chat.js` (class `MediBotChat`): the
closure variables of one `sendMessage` call, the `EventSource` it opens, the
part of the page its callbacks touch, and the three callbacks
(`eventSource.onmessage`, `eventSource.onerror`, the `setTimeout` callback);
input validation, quick actions and the rendering of sources; and of the
fetch, install and activate handlers of `static/sw.js`.

Modelling conventions.
* One exchange is one `Exchange` value; a callback is a function
  `Exchange → Exchange`.
* A JavaScript exception is `Except.error st`, where `st` is the state reached
  when it was thrown; the `try/catch` of `onmessage` keeps that state.
* `calls` records, in order, every method the callbacks invoke on `this` and on
  the `EventSource` (nested calls included), so that "is invoked once" is a
  count over `calls`.
* Console output, scrolling, focus, CSS and the clock are not modelled. All
  page elements looked up by `setupElements` are taken to exist.
* Text set through `innerHTML` is kept as text: markup inside streamed content
  is not parsed back into elements.
-/

namespace MediBot

/-! ## JavaScript strings -/

/-- ECMAScript LineTerminator code points: the characters `.` does not match. -/
def isLineTerminator (c : Char) : Bool :=
  c.toNat == 0x0A || c.toNat == 0x0D || c.toNat == 0x2028 || c.toNat == 0x2029

/-- ECMAScript WhiteSpace and LineTerminator code points, as stripped by
`String.prototype.trim`. -/
def isJsSpace (c : Char) : Bool :=
  isLineTerminator c || c.toNat == 0x09 || c.toNat == 0x0B || c.toNat == 0x0C ||
  c.toNat == 0x20 || c.toNat == 0xA0 || c.toNat == 0xFEFF || c.toNat == 0x1680 ||
  (0x2000 ≤ c.toNat && c.toNat ≤ 0x200A) || c.toNat == 0x202F ||
  c.toNat == 0x205F || c.toNat == 0x3000

/-- `String.prototype.trim`. -/
def jsTrim (s : String) : String :=
  ⟨((s.data.dropWhile isJsSpace).reverse.dropWhile isJsSpace).reverse⟩

/-- The continuation of a lazy group `(.*?)` followed by the literal `d`:
the shortest run of non-line-terminators up to the first occurrence of `d`.
Returns the captured run and the input after `d`. -/
def lazyUntil (d : List Char) : List Char → Option (List Char × List Char)
  | [] => none
  | c :: rest =>
    if d.isPrefixOf (c :: rest) then some ([], (c :: rest).drop d.length)
    else if isLineTerminator c then none
    else (lazyUntil d rest).map (fun r => (c :: r.1, r.2))

/-- Global replace of `d(.*?)d` by `pre$1post`, scanning left to right. -/
def replaceDelim (d pre post : List Char) : Nat → List Char → List Char
  | 0, xs => xs
  | _ + 1, [] => []
  | fuel + 1, c :: rest =>
    if d.isPrefixOf (c :: rest) then
      match lazyUntil d ((c :: rest).drop d.length) with
      | some (inner, after) => pre ++ inner ++ post ++ replaceDelim d pre post fuel after
      | none => c :: replaceDelim d pre post fuel rest
    else c :: replaceDelim d pre post fuel rest

/-- Global replace of the literal `d` by `r`, scanning left to right. -/
def replaceLit (d r : List Char) : Nat → List Char → List Char
  | 0, xs => xs
  | _ + 1, [] => []
  | fuel + 1, c :: rest =>
    if d.isPrefixOf (c :: rest) then r ++ replaceLit d r fuel ((c :: rest).drop d.length)
    else c :: replaceLit d r fuel rest

/-- `text.replace(/^(.+)/, pre + '$1')`: without the `m` flag `^` matches at
index 0 only, and `.+` needs a first character that is not a line terminator. -/
def wrapStart (pre : List Char) : List Char → List Char
  | [] => []
  | c :: rest => if isLineTerminator c then c :: rest else pre ++ c :: rest

/-- `text.replace(/(.+)$/, '$1' + post)`: without the `m` flag `$` matches at
the end of input only, so the match is the last line-terminator-free run,
which must be non-empty. -/
def wrapEnd (post : List Char) (xs : List Char) : List Char :=
  match xs.getLast? with
  | none => xs
  | some c => if isLineTerminator c then xs else xs ++ post

/-- `formatMarkdown(text)`. -/
def formatMarkdown (text : String) : String :=
  if text = "" then ""
  else
    let bt : Char := Char.ofNat 96
    let t0 := text.data
    let t1 := replaceDelim ['*', '*'] "<strong>".data "</strong>".data (t0.length + 1) t0
    let t2 := replaceDelim ['*'] "<em>".data "</em>".data (t1.length + 1) t1
    let t3 := replaceDelim [bt]
      "<code style=\"background: #f1f5f9; padding: 2px 6px; border-radius: 4px; font-family: monospace; font-size: 0.9em;\">".data
      "</code>".data (t2.length + 1) t2
    let t4 := replaceLit ['\n', '\n'] "</p><p style=\"margin: 12px 0;\">".data (t3.length + 1) t3
    let t5 := replaceLit ['\n'] "<br>".data (t4.length + 1) t4
    let t6 := wrapStart "<p style=\"margin: 8px 0;\">".data t5
    ⟨wrapEnd "</p>".data t6⟩

/-- The serialisation of a text node read back through `innerHTML`. -/
def escapeText : List Char → List Char
  | [] => []
  | c :: rest =>
    (if c = '&' then "&amp;".data
     else if c = '<' then "&lt;".data
     else if c = '>' then "&gt;".data
     else if c.toNat == 0xA0 then "&nbsp;".data
     else [c]) ++ escapeText rest

/-- `sanitizeInput(input)`. -/
def sanitizeInput (input : String) : String :=
  if input = "" then "" else ⟨escapeText input.data⟩

/-! ## Streamed payloads -/

/-- A citation given as an object; a field is `none` when the key is absent. -/
structure SourceObj where
  name : Option String
  credibility : Option ℚ
  icon : Option String
deriving DecidableEq

/-- One entry of a `sources` list: an object or a bare string (a file path). -/
inductive Source where
  | obj (o : SourceObj)
  | path (s : String)
deriving DecidableEq

/-- A `content` value that is a string, `null`, or missing (`undefined`). -/
inductive Scalar where
  | str (s : String)
  | null
  | undef
deriving DecidableEq

/-- The string a scalar becomes under `+=` on a string or inside a template
literal. -/
def Scalar.toJsString : Scalar → String
  | .str s => s
  | .null => "null"
  | .undef => "undefined"

/-- The `content` field of a parsed event: "string for chunks/warnings/errors,
list of Source for sources", or null/missing. Numbers, booleans and plain
objects are not represented; in `onmessage` they fail at the same statement
as a list does. -/
inductive Content where
  | scalar (v : Scalar)
  | list (xs : List Source)
deriving DecidableEq

/-- The `event.data` text of one message event, by what `JSON.parse` makes of
it: a syntax error, the value `null`, or a value whose `type` property is the
given string (`none` when missing or not a string) and whose `content`
property is the given value. -/
inductive Payload where
  | malformed
  | nullValue
  | data (type : Option String) (content : Content)
deriving DecidableEq

/-! ## The page and the exchange -/

/-- A child of `messagesContainer`. A `bot` node is the bubble element with
the given id: its formatted text, whether its `.message-time` child is
present, and the source lists of its `.message-sources` children in order. -/
inductive Node where
  | user (content : String)
  | typing
  | bot (id : String) (body : String) (time : Bool) (sources : List (List Source))
  | warning (content : String)
  | error (message : String)
  | other (html : String)
deriving DecidableEq

/-- The part of the page the widget reads and writes. -/
structure Page where
  container : List Node
  inputValue : String
  sendDisabled : Bool
  sendSpinner : Bool
  counterText : String
  counterClass : String
deriving DecidableEq

/-- `EventSource.readyState`. -/
inductive ReadyState where
  | CONNECTING
  | OPEN
  | CLOSED
deriving DecidableEq

/-- A method invoked by a callback of the exchange. -/
inductive Call where
  | hideTypingIndicator
  | updateBotMessage (content : String)
  | updateBotMessageSources
  | showMedicalWarning (content : String)
  | handleError (message : String)
  | enableForm
  | close
  | addToConversationHistory (text : String)
deriving DecidableEq

/-- The state of one exchange: the page, the `let` variables of `sendMessage`
captured by its callbacks, the `readyState` of its `EventSource`, and the
calls its callbacks have made so far. -/
structure Exchange extends Page where
  messageId : String
  fullResponse : String
  sources : Content
  hasStartedResponse : Bool
  connectionClosed : Bool
  readyState : ReadyState
  calls : List Call
deriving DecidableEq

/-- Removes the first `typing` node, as `getElementById('typing-indicator')`
followed by `remove()` does. -/
def removeTyping : List Node → List Node
  | [] => []
  | .typing :: rest => rest
  | n :: rest => n :: removeTyping rest

/-- The bubble `getElementById(id)` finds: the first one with that id. -/
def findBubble (id : String) : List Node → Option (String × Bool × List (List Source))
  | [] => none
  | .bot i body time srcs :: rest =>
    if i = id then some (body, time, srcs) else findBubble id rest
  | _ :: rest => findBubble id rest

/-- Rewrites the first bubble with the given id. -/
def mapBubble (id : String) (f : String → Bool → List (List Source) → Node) :
    List Node → List Node
  | [] => []
  | .bot i body time srcs :: rest =>
    if i = id then f body time srcs :: rest
    else .bot i body time srcs :: mapBubble id f rest
  | n :: rest => n :: mapBubble id f rest

/-- `hideTypingIndicator()`. -/
def hideTypingIndicator (s : Exchange) : Exchange :=
  { s with container := removeTyping s.container,
           calls := s.calls ++ [.hideTypingIndicator] }

/-- `enableForm()`. -/
def enableForm (s : Exchange) : Exchange :=
  { s with sendDisabled := decide (jsTrim s.inputValue = ""),
           sendSpinner := false,
           calls := s.calls ++ [.enableForm] }

/-- `eventSource.close()`. -/
def close (s : Exchange) : Exchange :=
  { s with readyState := .CLOSED, calls := s.calls ++ [.close] }

/-- `addToConversationHistory(text, role)`: an empty method in this source. -/
def addToConversationHistory (s : Exchange) (text : String) : Exchange :=
  { s with calls := s.calls ++ [.addToConversationHistory text] }

/-- `updateBotMessage(messageId, content)`: creates the bubble when no element
has the id, then replaces its text by `formatMarkdown(content)`, keeping the
time element and the first sources element. -/
def updateBotMessage (s : Exchange) (content : String) : Exchange :=
  let c1 := match findBubble s.messageId s.container with
    | none => s.container ++ [.bot s.messageId "" true []]
    | some _ => s.container
  let c2 := mapBubble s.messageId
    (fun _ time srcs => .bot s.messageId (formatMarkdown content) time (srcs.take 1)) c1
  { s with container := c2, calls := s.calls ++ [.updateBotMessage content] }

/-- `updateBotMessageSources(messageId, sources)`. With the bubble present, a
non-empty list is rendered by `renderSources` and inserted at the end of the
bubble; a non-empty string reaches `sources.map`, which is not a function. -/
def updateBotMessageSources (s : Exchange) (sources : Content) : Except Exchange Exchange :=
  let s1 := { s with calls := s.calls ++ [.updateBotMessageSources] }
  match findBubble s.messageId s.container with
  | none => .ok s1
  | some _ =>
    match sources with
    | .scalar (.str t) => if t = "" then .ok s1 else .error s1
    | .scalar _ => .ok s1
    | .list xs =>
      if xs = [] then .ok s1
      else
        let c1 := mapBubble s.messageId
          (fun body time srcs => .bot s.messageId body time (srcs ++ [xs])) s1.container
        .ok { s1 with container := c1 }

/-- `showMedicalWarning(content)`. -/
def showMedicalWarning (s : Exchange) (content : String) : Exchange :=
  { s with container := s.container ++ [.warning content],
           calls := s.calls ++ [.showMedicalWarning content] }

/-- `handleError(message)`. -/
def handleError (s : Exchange) (message : String) : Exchange :=
  let s1 := { s with calls := s.calls ++ [.handleError message] }
  let s2 := enableForm (hideTypingIndicator s1)
  { s2 with container := s2.container ++ [.error message] }

/-! ## The callbacks of `sendMessage` -/

/-- The `try` block of `eventSource.onmessage`. It throws before any effect
when `JSON.parse` fails, when `data` is `null` (reading `data.type`), and when
`data.content` is an array: the argument `data.content?.substring(0, 30)` of
the logging statement calls a method arrays do not have, and `?.` only guards
`null` and `undefined`. -/
def onmessageTry (s : Exchange) : Payload → Except Exchange Exchange
  | .malformed => .error s
  | .nullValue => .error s
  | .data _ (.list _) => .error s
  | .data type (.scalar v) =>
    if type = some "answer_chunk" then
      let s1 := if s.hasStartedResponse then s
                else { hideTypingIndicator s with hasStartedResponse := true }
      let s2 := { s1 with fullResponse := s1.fullResponse ++ v.toJsString }
      .ok (updateBotMessage s2 s2.fullResponse)
    else if type = some "sources" then
      let s1 := { s with sources := .scalar v }
      match updateBotMessageSources s1 s1.sources with
      | .error e => .error e
      | .ok s2 =>
        let s3 := { s2 with connectionClosed := true }
        let s4 := enableForm (close s3)
        .ok (addToConversationHistory s4 s4.fullResponse)
    else if type = some "medical_warning" then
      .ok (showMedicalWarning s v.toJsString)
    else if type = some "error" then
      let s1 := { s with connectionClosed := true }
      .ok (enableForm (close (handleError s1 v.toJsString)))
    else .ok s

/-- `eventSource.onmessage`: the `catch` block only logs. -/
def onmessage (s : Exchange) (p : Payload) : Exchange :=
  match onmessageTry s p with
  | .ok t => t
  | .error t => t

/-- `eventSource.onerror`. -/
def onerror (s : Exchange) : Exchange :=
  let s1 :=
    if !s.connectionClosed && !s.hasStartedResponse then
      enableForm (handleError (hideTypingIndicator s)
        "Connection error. Please refresh the page and try again.")
    else if !s.connectionClosed && s.hasStartedResponse then enableForm s
    else s
  if !s1.connectionClosed then { close s1 with connectionClosed := true } else s1

/-- The `setTimeout` callback (15000 ms). -/
def timeout (s : Exchange) : Exchange :=
  if !s.connectionClosed && s.readyState != .CLOSED then
    let s1 := close { s with connectionClosed := true }
    if !s1.hasStartedResponse then
      enableForm (handleError (hideTypingIndicator s1) "Request timed out. Please try again.")
    else s1
  else s

/-- `sendMessage(message)` up to the point where the callbacks are installed:
the user message is displayed, the input cleared and disabled, the typing
indicator shown, the `EventSource` created and the closure variables
initialised. `messageId` stands for the clock-derived id. -/
def sendMessage (pg : Page) (message messageId : String) : Exchange :=
  { container := pg.container ++ [.user (sanitizeInput message)] ++ [.typing],
    inputValue := "",
    sendDisabled := true,
    sendSpinner := true,
    counterText := "0/1000",
    counterClass := "character-count",
    messageId := messageId,
    fullResponse := "",
    sources := .list [],
    hasStartedResponse := false,
    connectionClosed := false,
    readyState := .CONNECTING,
    calls := [] }

/-- A callback invocation. -/
inductive Event where
  | message (p : Payload)
  | transportError
  | timeout
deriving DecidableEq

/-- Invokes the callback for an event. -/
def fire (s : Exchange) : Event → Exchange
  | .message p => onmessage s p
  | .transportError => onerror s
  | .timeout => timeout s

/-- Invokes the callbacks for a sequence of events, in order. -/
def run (s : Exchange) (es : List Event) : Exchange :=
  es.foldl fire s

/-! ## Event sequences and observations -/

/-- The message event of type `answer_chunk` with string content `c`. -/
def chunkEvent (c : String) : Event :=
  .message (.data (some "answer_chunk") (.scalar (.str c)))

/-- The message event of type `error` with the given content. -/
def errorEvent (v : Scalar) : Event :=
  .message (.data (some "error") (.scalar v))

/-- The message event of type `sources` with the given content. -/
def sourcesEvent (c : Content) : Event :=
  .message (.data (some "sources") c)

/-- Left-to-right concatenation `c1 + c2 + ... + cn`. -/
def concatAll (cs : List String) : String :=
  cs.foldl (fun acc c => acc ++ c) ""

/-- The arguments of the `updateBotMessage` calls in a trace, in order. -/
def updateArgs : List Call → List String
  | [] => []
  | .updateBotMessage c :: rest => c :: updateArgs rest
  | _ :: rest => updateArgs rest

/-- The text of the bubble `getElementById(id)` finds, if any. -/
def bubbleBody (id : String) (c : List Node) : Option String :=
  (findBubble id c).map (fun b => b.1)

/-- How often `enableForm` has been invoked. -/
def enableCount (s : Exchange) : Nat :=
  s.calls.count .enableForm

/-- Whether a call is a `handleError`, which appends one error notice. -/
def Call.isNotice : Call → Bool
  | .handleError _ => true
  | _ => false

/-- Whether a call is the `addToConversationHistory` of the `sources` branch,
the only one a callback makes: the record of a normal completion. -/
def Call.isCompletion : Call → Bool
  | .addToConversationHistory _ => true
  | _ => false

/-- How many error notices (server error, transport failure or timeout) the
callbacks have shown. -/
def noticeCount (s : Exchange) : Nat :=
  s.calls.countP Call.isNotice

/-- How many normal completions the callbacks have recorded. -/
def completionCount (s : Exchange) : Nat :=
  s.calls.countP Call.isCompletion

/-- What the browser can do to the exchange: announce the connection, deliver a
message, report a transport error (`fatal` when it fails the connection
instead of reconnecting), or run the timer. -/
inductive Signal where
  | opened
  | message (p : Payload)
  | failed (fatal : Bool)
  | timer
deriving DecidableEq

/-- The `EventSource` processing model of the HTML standard around the
callbacks: a closed `EventSource` fires no `open`, `message` or `error`
event; before an `error` event `readyState` becomes `CONNECTING` or `CLOSED`;
the timer callback always runs. -/
def deliver (s : Exchange) : Signal → Exchange
  | .opened => if s.readyState = .CLOSED then s else { s with readyState := .OPEN }
  | .message p => if s.readyState = .CLOSED then s else onmessage s p
  | .failed fatal =>
    if s.readyState = .CLOSED then s
    else onerror { s with readyState := if fatal then .CLOSED else .CONNECTING }
  | .timer => timeout s

/-- Delivers a sequence of signals in order. -/
def deliverAll (s : Exchange) (sigs : List Signal) : Exchange :=
  sigs.foldl deliver s

/-- JavaScript truthiness of a scalar: the empty string, `null` and
`undefined` are falsy. -/
def Scalar.truthy : Scalar → Bool
  | .str s => decide (s ≠ "")
  | .null => false
  | .undef => false

/-- A page with an empty conversation, used for concrete runs. -/
def demoPage : Page :=
  { container := [], inputValue := "hello", sendDisabled := false, sendSpinner := false,
    counterText := "5/1000", counterClass := "character-count" }

/-- The exchange opened by sending "hello" from `demoPage`. -/
def demoExchange : Exchange :=
  sendMessage demoPage "hello" "msg_1"

/-- The invariant of an exchange under `deliver`: the termination flag is set
exactly when the `EventSource` is closed; at most one notice or completion has
happened, none before termination, and none after it only when content had
started. -/
def ExchangeInv (s : Exchange) : Prop :=
  (s.connectionClosed = true ↔ s.readyState = .CLOSED) ∧
  noticeCount s + completionCount s ≤ 1 ∧
  (s.connectionClosed = false → noticeCount s + completionCount s = 0) ∧
  (s.connectionClosed = true → noticeCount s + completionCount s = 0 →
    s.hasStartedResponse = true)

/-! ## Input validation, quick actions and typing -/

/-- The `length` of a JavaScript string: its number of UTF-16 code units. -/
def jsLength (s : String) : Nat :=
  (s.data.map (fun c => if c.toNat > 0xFFFF then 2 else 1)).sum

/-- The arguments of one `showToast(message, type)` call. -/
structure Toast where
  message : String
  type : String
deriving DecidableEq

/-- `showToast(message, type)`: one of the "placeholder methods for
compatibility". Its body is a single `console.log`, so it leaves the page as
it is: no element is created, shown or changed. -/
def showToast (pg : Page) (_toast : Toast) : Page :=
  pg

/-- What `handleSubmit` ends in: a `showToast` call, with the page that call
leaves behind and no `EventSource` created, or a `sendMessage` call. -/
inductive SubmitResult where
  | rejected (toast : Toast) (page : Page)
  | sent (e : Exchange)
deriving DecidableEq

/-- `handleSubmit(e)`. -/
def handleSubmit (pg : Page) (messageId : String) : SubmitResult :=
  let message := jsTrim pg.inputValue
  if message = "" then
    .rejected ⟨"Please enter a message", "warning"⟩
      (showToast pg ⟨"Please enter a message", "warning"⟩)
  else if jsLength message > 1000 then
    .rejected ⟨"Message too long. Please keep it under 1000 characters.", "warning"⟩
      (showToast pg ⟨"Message too long. Please keep it under 1000 characters.", "warning"⟩)
  else .sent (sendMessage pg message messageId)

/-- `sendQuickAction(query)`. -/
def sendQuickAction (pg : Page) (query messageId : String) : Exchange :=
  sendMessage { pg with inputValue := query } query messageId

/-- The document click listener on a `.quick-action-btn` element whose
`data-query` attribute is `query` (`none` when it has none). -/
def quickActionClick (pg : Page) (query : Option String) (messageId : String) :
    Option Exchange :=
  match query with
  | none => none
  | some q => if q = "" then none else some (sendQuickAction pg q messageId)

/-- `handleInputChange(e)`, where `value` is `e.target.value`, the content of
the input after the edit. -/
def handleInputChange (pg : Page) (value : String) : Page :=
  let length := jsLength value
  { pg with
    inputValue := value,
    counterText := toString length ++ "/1000",
    counterClass :=
      if length > 900 then "character-count error"
      else if length > 800 then "character-count warning"
      else "character-count",
    sendDisabled := decide (length = 0) || decide (length > 1000) }

/-- An `input` event on the message input while the exchange is running. -/
def typeInput (s : Exchange) (value : String) : Exchange :=
  { s with toPage := handleInputChange s.toPage value }

/-- The message event of type `medical_warning` with the given content. -/
def warningEvent (v : Scalar) : Event :=
  .message (.data (some "medical_warning") (.scalar v))

/-! ## Rendering of sources -/

/-- The number literal `0.7` as JavaScript reads it: the nearest double. -/
def defaultCredibility : ℚ :=
  3152519739159347 / 4503599627370496

/-- The variables `displayName`, `credibilityScore` and `icon` computed for
one source. A credibility is the value of the parsed number. -/
structure SourceFields where
  displayName : String
  credibilityScore : ℚ
  icon : String
deriving DecidableEq

/-- `value || fallback` for an optional string property: the fallback stands
in when the property is missing or the empty string. -/
def orString (value : Option String) (fallback : String) : String :=
  match value with
  | none => fallback
  | some v => if v = "" then fallback else v

/-- `value || fallback` for an optional number property: the fallback stands
in when the property is missing or zero. -/
def orNumber (value : Option ℚ) (fallback : ℚ) : ℚ :=
  match value with
  | none => fallback
  | some v => if v = 0 then fallback else v

/-- The separators of the regular expression `/[\\/]/`. -/
def isPathSeparator (c : Char) : Bool :=
  c = '/' || c.toNat == 92

/-- `source.split(/[\\/]/)`. -/
def splitPath : List Char → List (List Char)
  | [] => [[]]
  | c :: rest =>
    if isPathSeparator c then [] :: splitPath rest
    else
      match splitPath rest with
      | [] => [[c]]
      | seg :: segs => (c :: seg) :: segs

/-- `source.split(/[\\/]/).pop()`. -/
def lastSegment (source : String) : String :=
  ⟨(splitPath source.data).getLast?.getD []⟩

/-- The body of the `sources.map` callback of `renderSources` up to the
template: the three values it displays. -/
def sourceFields : Source → SourceFields
  | .obj o =>
    { displayName := orString o.name "Unknown Source",
      credibilityScore := orNumber o.credibility defaultCredibility,
      icon := orString o.icon "📚" }
  | .path source =>
    { displayName := orString (some (lastSegment source)) "Medical Reference",
      credibilityScore := defaultCredibility,
      icon := "📚" }

/-- Rounding to the nearest integer, ties to the even one. -/
def roundHalfEven (x : ℚ) : ℤ :=
  if x - ⌊x⌋ < 1 / 2 then ⌊x⌋
  else if 1 / 2 < x - ⌊x⌋ then ⌊x⌋ + 1
  else if ⌊x⌋ % 2 = 0 then ⌊x⌋
  else ⌊x⌋ + 1

/-- The double (IEEE 754 binary64) nearest to `q`, ties to even: 53 significant
bits, the spacing never finer than `2 ^ (-1074)`. `none` is an infinity, for a
result of magnitude `2 ^ 1024` or more. -/
def toDouble (q : ℚ) : Option ℚ :=
  if q = 0 then some 0
  else
    let p : ℤ := max (Int.log 2 |q| - 52) (-1074)
    let r : ℚ := roundHalfEven (q / 2 ^ p) * 2 ^ p
    if (2 : ℚ) ^ (1024 : ℤ) ≤ |r| then none else some r

/-- `Math.round(credibilityScore * 100)`: the product of two doubles, rounded
to a double, then to the nearest integer with ties upwards. `none` when the
product overflows and the text shown is `Infinity`. -/
def displayedPercent (credibilityScore : ℚ) : Option ℤ :=
  (toDouble (credibilityScore * 100)).map (fun x => ⌊x + 1 / 2⌋)

/-- One `li.source-item` of the rendered list: the icon as given, the display
name through `sanitizeInput`, the score, and the percentage shown for it. The
colour of the item is not modelled. -/
structure SourceItem where
  icon : String
  name : String
  score : ℚ
  percent : Option ℤ
deriving DecidableEq

/-- `renderSources(sources)`: `none` for the empty string it returns on an
empty list, otherwise the items of the `.message-sources` block. -/
def renderSources (sources : List Source) : Option (List SourceItem) :=
  if sources = [] then none
  else some (sources.map (fun source =>
    let f := sourceFields source
    { icon := f.icon, name := sanitizeInput f.displayName, score := f.credibilityScore,
      percent := displayedPercent f.credibilityScore }))

/-! ## Service worker (`static/sw.js`) -/

/-- `CACHE_NAME`. -/
def CACHE_NAME : String := "medibot-ai-v2.0.0"

/-- `urlsToCache`. -/
def urlsToCache : List String :=
  ["/",
   "/static/style.css",
   "/static/enhanced-chat.js",
   "/static/manifest.json",
   "https://cdn.jsdelivr.net/npm/bootstrap@5.3.2/dist/css/bootstrap.min.css",
   "https://cdnjs.cloudflare.com/ajax/libs/font-awesome/6.4.0/css/all.min.css",
   "https://fonts.googleapis.com/css2?family=Inter:wght@300;400;500;600;700&display=swap",
   "https://cdn.jsdelivr.net/npm/marked/marked.min.js",
   "https://code.jquery.com/jquery-3.7.1.min.js"]

/-- The part of a `Request` the handlers read. -/
structure Request where
  url : String
  mode : String
deriving DecidableEq

/-- A `Response`: status, headers and body text. -/
structure Response where
  status : Nat
  headers : List (String × String)
  body : String
deriving DecidableEq

/-- How a promise settles. -/
inductive Settled (α : Type) where
  | fulfilled (value : α)
  | rejected
deriving DecidableEq

/-- The lines of the template literal passed to `new Response` in the `catch`
callback. -/
def offlinePageLines : List String :=
  ["",
    "            <!DOCTYPE html>",
    "            <html>",
    "            <head>",
    "              <title>MediBot AI - Offline</title>",
    "              <style>",
    "                body \x7b font-family: \x27Inter\x27, sans-serif; text-align: center; padding: 50px; background: linear-gradient(135deg, #667eea 0%, #764ba2 100%); color: white; \x7d",
    "                .offline-container \x7b background: rgba(255,255,255,0.1); padding: 40px; border-radius: 20px; backdrop-filter: blur(10px); \x7d",
    "                .pulse \x7b animation: pulse 2s ease-in-out infinite alternate; \x7d",
    "                @keyframes pulse \x7b from \x7b transform: scale(1); \x7d to \x7b transform: scale(1.05); \x7d \x7d",
    "              </style>",
    "            </head>",
    "            <body>",
    "              <div class=\"offline-container\">",
    "                <div class=\"pulse\">🏥</div>",
    "                <h1>MediBot AI</h1>",
    "                <h3>You\x27re currently offline</h3>",
    "                <p>Please check your internet connection to use MediBot AI.</p>",
    "                <button onclick=\"window.location.reload()\" style=\"padding: 10px 20px; border: none; border-radius: 25px; background: white; color: #667eea; font-weight: bold; cursor: pointer;\">",
    "                  Try Again",
    "                </button>",
    "              </div>",
    "            </body>",
    "            </html>",
    "          "]

/-- The offline page: `new Response(html, headers)` with the single header
`Content-Type: text/html` and the default status 200. -/
def offlineResponse : Response :=
  { status := 200,
    headers := [("Content-Type", "text/html")],
    body := "\n".intercalate offlinePageLines }

/-- `Headers.get(name)` on a header list with exact names. -/
def Response.header (r : Response) (name : String) : Option String :=
  (r.headers.find? (fun h => h.1 = name)).map (fun h => h.2)

/-- `text.includes(sub)` on character lists. -/
def includesChars (sub : List Char) : List Char → Bool
  | [] => sub.isPrefixOf []
  | c :: rest => sub.isPrefixOf (c :: rest) || includesChars sub rest

/-- `String.prototype.includes`. -/
def includes (text sub : String) : Bool :=
  includesChars sub.data text.data

/-- What a promise chain of the fetch handler yields: how it settles and how
often `fetch(event.request)` was called on the way. -/
structure Chain (α : Type) where
  promise : Settled α
  networkCalls : Nat

/-- The `then` callback of the fetch handler, given what `caches.match`
resolved to (`none` for `undefined`) and how `fetch(event.request)` would
settle. Both branches of the URL test make the same call. -/
def cacheThen (request : Request) (response : Option Response)
    (network : Settled Response) : Chain Response :=
  match response with
  | some cached => { promise := .fulfilled cached, networkCalls := 0 }
  | none =>
    if includes request.url "/get" || includes request.url "/feedback" then
      { promise := network, networkCalls := 1 }
    else
      { promise := network, networkCalls := 1 }

/-- The `catch` callback of the fetch handler: the offline page for a
navigation, `undefined` (`none`) otherwise. -/
def cacheCatch (request : Request) : Option Response :=
  if request.mode = "navigate" then some offlineResponse else none

/-- The promise passed to `event.respondWith` by the fetch handler:
`caches.match(request).then(...).catch(...)`. It never rejects; `none` is
`undefined`. -/
def onFetch (request : Request) (cacheMatch : Settled (Option Response))
    (network : Settled Response) : Chain (Option Response) :=
  match cacheMatch with
  | .rejected => { promise := .fulfilled (cacheCatch request), networkCalls := 0 }
  | .fulfilled response =>
    match (cacheThen request response network).promise with
    | .fulfilled r =>
      { promise := .fulfilled (some r),
        networkCalls := (cacheThen request response network).networkCalls }
    | .rejected =>
      { promise := .fulfilled (cacheCatch request),
        networkCalls := (cacheThen request response network).networkCalls }

/-- What the page gets for its request. -/
inductive Served where
  | response (r : Response)
  | networkError
deriving DecidableEq

/-- `event.respondWith(promise)` in the Service Worker standard: a promise
that rejects, or resolves to something that is not a `Response`, makes the
request fail with a network error. -/
def respondWith : Settled (Option Response) → Served
  | .fulfilled (some r) => .response r
  | .fulfilled none => .networkError
  | .rejected => .networkError

/-- The install handler on the list of bucket names: `caches.open(CACHE_NAME)`
creates the bucket when it is missing; `opened` tells whether that call
succeeded. A failure, also of `addAll`, is caught and logged. -/
def install (names : List String) (opened : Bool) : List String :=
  if opened then (if CACHE_NAME ∈ names then names else names ++ [CACHE_NAME])
  else names

/-- The names the activate handler passes to `caches.delete`. -/
def deletedOnActivate (cacheNames : List String) : List String :=
  cacheNames.filter (fun cacheName => cacheName != CACHE_NAME)

/-- The bucket names left after the activate handler: `caches.keys()` without
the deleted ones. -/
def activate (cacheNames : List String) : List String :=
  cacheNames.filter (fun cacheName => !(deletedOnActivate cacheNames).contains cacheName)

/-! # Theorems -/

/-! ## Basic facts about the page operations -/

theorem run_append (s : Exchange) (a b : List Event) :
    run s (a ++ b) = run (run s a) b := by
  simp [run, List.foldl_append]

theorem run_cons (s : Exchange) (e : Event) (es : List Event) :
    run s (e :: es) = run (fire s e) es := rfl

theorem findBubble_append_bot (id body : String) (time : Bool)
    (srcs : List (List Source)) (c : List Node) :
    (findBubble id (c ++ [.bot id body time srcs])).isSome = true := by
  induction c with
  | nil => simp [findBubble]
  | cons n rest ih =>
    cases n <;> simp [findBubble, ih]
    split <;> simp [ih]

theorem bubbleBody_mapBubble (id b : String) (g : List (List Source) → List (List Source))
    (c : List Node) (h : (findBubble id c).isSome = true) :
    bubbleBody id (mapBubble id (fun _ t s => .bot id b t (g s)) c) = some b := by
  induction c with
  | nil => simp [findBubble] at h
  | cons n rest ih =>
    cases n <;> simp_all [findBubble, mapBubble, bubbleBody]
    split <;> simp_all [findBubble]

theorem bubbleBody_updateBotMessage (s : Exchange) (content : String) :
    bubbleBody s.messageId (updateBotMessage s content).container
      = some (formatMarkdown content) := by
  unfold updateBotMessage
  cases h : findBubble s.messageId s.container with
  | none =>
    simp only []
    exact bubbleBody_mapBubble _ _ _ _ (findBubble_append_bot _ _ _ _ _)
  | some b =>
    simp only []
    exact bubbleBody_mapBubble _ _ _ _ (by simp [h])

/-! ## Streaming of answer chunks -/

theorem fire_chunk_fullResponse (s : Exchange) (c : String) :
    (fire s (chunkEvent c)).fullResponse = s.fullResponse ++ c := by
  simp only [fire, chunkEvent, onmessage, onmessageTry, Scalar.toJsString, if_true]
  cases s.hasStartedResponse <;> rfl

theorem fire_chunk_messageId (s : Exchange) (c : String) :
    (fire s (chunkEvent c)).messageId = s.messageId := by
  simp only [fire, chunkEvent, onmessage, onmessageTry, Scalar.toJsString, if_true]
  cases s.hasStartedResponse <;> rfl

theorem updateArgs_append (a b : List Call) :
    updateArgs (a ++ b) = updateArgs a ++ updateArgs b := by
  induction a with
  | nil => rfl
  | cons x rest ih => cases x <;> simp [updateArgs, ih]

theorem fire_chunk_updateArgs (s : Exchange) (c : String) :
    updateArgs (fire s (chunkEvent c)).calls = updateArgs s.calls ++ [s.fullResponse ++ c] := by
  simp only [fire, chunkEvent, onmessage, onmessageTry, Scalar.toJsString, if_true]
  cases h : s.hasStartedResponse <;>
    simp [updateBotMessage, hideTypingIndicator, updateArgs_append, updateArgs]

theorem fire_chunk_bubble (s : Exchange) (c : String) :
    bubbleBody s.messageId (fire s (chunkEvent c)).container
      = some (formatMarkdown (s.fullResponse ++ c)) := by
  simp only [fire, chunkEvent, onmessage, onmessageTry, Scalar.toJsString, if_true]
  cases h : s.hasStartedResponse
  · exact bubbleBody_updateBotMessage
      { hideTypingIndicator s with hasStartedResponse := true,
                                   fullResponse := s.fullResponse ++ c } _
  · exact bubbleBody_updateBotMessage { s with fullResponse := s.fullResponse ++ c } _

theorem run_chunks_fullResponse (cs : List String) (s : Exchange) :
    (run s (cs.map chunkEvent)).fullResponse
      = cs.foldl (fun acc c => acc ++ c) s.fullResponse := by
  induction cs generalizing s with
  | nil => rfl
  | cons c rest ih =>
    simp only [List.map_cons, run_cons, List.foldl_cons]
    rw [ih, fire_chunk_fullResponse]

theorem run_chunks_messageId (cs : List String) (s : Exchange) :
    (run s (cs.map chunkEvent)).messageId = s.messageId := by
  induction cs generalizing s with
  | nil => rfl
  | cons c rest ih =>
    simp only [List.map_cons, run_cons]
    rw [ih, fire_chunk_messageId]

theorem foldl_take_succ (cs : List String) (acc c : String) (k : Nat) :
    ((c :: cs).take (k + 1)).foldl (fun a x => a ++ x) acc
      = (cs.take k).foldl (fun a x => a ++ x) (acc ++ c) := by
  simp

theorem run_chunks_updateArgs (cs : List String) (s : Exchange) :
    updateArgs (run s (cs.map chunkEvent)).calls
      = updateArgs s.calls ++ (List.range cs.length).map
          (fun k => (cs.take (k + 1)).foldl (fun a x => a ++ x) s.fullResponse) := by
  induction cs generalizing s with
  | nil => simp [run]
  | cons c rest ih =>
    simp only [List.map_cons, run_cons, List.length_cons]
    rw [ih, fire_chunk_updateArgs, fire_chunk_fullResponse, List.range_succ_eq_map]
    simp [List.map_map, Function.comp_def]

/-- C3. Answer chunks `c1 .. cn` delivered in order to a fresh exchange: after
the whole sequence `fullResponse` is `c1 + ... + cn`; the k-th call of
`updateBotMessage` received `c1 + ... + ck`; and once a chunk has arrived the
bubble shows `formatMarkdown` of the text accumulated so far. -/
theorem chunks_render_concatenation (pg : Page) (message messageId : String)
    (cs : List String) (c : String) :
    (run (sendMessage pg message messageId) (cs.map chunkEvent)).fullResponse = concatAll cs ∧
    updateArgs (run (sendMessage pg message messageId) (cs.map chunkEvent)).calls
      = (List.range cs.length).map (fun k => concatAll (cs.take (k + 1))) ∧
    bubbleBody messageId
        (run (sendMessage pg message messageId) ((cs ++ [c]).map chunkEvent)).container
      = some (formatMarkdown (concatAll (cs ++ [c]))) := by
  refine ⟨?_, ?_, ?_⟩
  · rw [run_chunks_fullResponse]; rfl
  · rw [run_chunks_updateArgs]; simp [sendMessage, updateArgs, concatAll]
  · rw [List.map_append, run_append]
    show bubbleBody messageId
      (fire (run (sendMessage pg message messageId) (cs.map chunkEvent)) (chunkEvent c)).container
        = _
    have h1 : (run (sendMessage pg message messageId) (cs.map chunkEvent)).messageId
        = messageId := by
      rw [run_chunks_messageId]; rfl
    have h2 := fire_chunk_bubble (run (sendMessage pg message messageId) (cs.map chunkEvent)) c
    rw [h1, run_chunks_fullResponse] at h2
    rw [h2]
    simp [concatAll, List.foldl_append, sendMessage]

/-! ## Single callback invocations -/

theorem count_removeTyping (c : List Node) :
    (removeTyping c).count .typing = c.count .typing - 1 := by
  induction c with
  | nil => rfl
  | cons n rest ih =>
    cases n <;> simp [removeTyping, ih, List.count_cons]

theorem findBubble_removeTyping (id : String) (c : List Node) :
    findBubble id (removeTyping c) = findBubble id c := by
  induction c with
  | nil => rfl
  | cons n rest ih =>
    cases n <;> simp [removeTyping, findBubble, ih]

theorem findBubble_append_error (id m : String) (c : List Node) :
    findBubble id (c ++ [.error m]) = findBubble id c := by
  induction c with
  | nil => rfl
  | cons n rest ih =>
    cases n <;> simp [findBubble, ih]

/-- C4. An `error` event with string content `m`, in any state of the exchange
(so in particular before termination, with or without an earlier chunk): the
typing indicator is removed, exactly one error notice with text `m` is appended
and nothing else in the conversation changes, the termination flag is set, the
connection is closed, and the accumulated text and the bubble showing it are
unchanged. -/
theorem error_event_shows_notice (s : Exchange) (m : String) :
    (fire s (errorEvent (.str m))).container = removeTyping s.container ++ [.error m] ∧
    (removeTyping s.container).count .typing = s.container.count .typing - 1 ∧
    (fire s (errorEvent (.str m))).connectionClosed = true ∧
    (fire s (errorEvent (.str m))).readyState = .CLOSED ∧
    (fire s (errorEvent (.str m))).calls
      = s.calls ++ [.handleError m, .hideTypingIndicator, .enableForm, .close, .enableForm] ∧
    (fire s (errorEvent (.str m))).fullResponse = s.fullResponse ∧
    (fire s (errorEvent (.str m))).hasStartedResponse = s.hasStartedResponse ∧
    findBubble s.messageId (fire s (errorEvent (.str m))).container
      = findBubble s.messageId s.container := by
  refine ⟨?_, count_removeTyping _, ?_, ?_, ?_, ?_, ?_, ?_⟩ <;>
    simp [fire, errorEvent, onmessage, onmessageTry, handleError, enableForm, close,
      hideTypingIndicator, Scalar.toJsString, findBubble_append_error, findBubble_removeTyping]

/-- C5. The transport-error callback before any terminal event
(`connectionClosed = false`). Without a chunk so far it shows the notice
"Connection error. Please refresh the page and try again." and re-enables the
form; with a chunk it shows nothing and only re-enables the form. In both cases
it closes the connection and sets the termination flag. -/
theorem transport_error_before_termination (s : Exchange)
    (h : s.connectionClosed = false) :
    (s.hasStartedResponse = false →
      (onerror s).container = removeTyping (removeTyping s.container)
        ++ [.error "Connection error. Please refresh the page and try again."] ∧
      (onerror s).calls = s.calls ++ [.hideTypingIndicator,
        .handleError "Connection error. Please refresh the page and try again.",
        .hideTypingIndicator, .enableForm, .enableForm, .close]) ∧
    (s.hasStartedResponse = true →
      (onerror s).container = s.container ∧
      (onerror s).calls = s.calls ++ [.enableForm, .close]) ∧
    (onerror s).connectionClosed = true ∧
    (onerror s).readyState = .CLOSED ∧
    (onerror s).sendSpinner = false ∧
    (onerror s).sendDisabled = decide (jsTrim s.inputValue = "") ∧
    (onerror s).fullResponse = s.fullResponse := by
  cases hs : s.hasStartedResponse <;>
    simp [onerror, h, hs, handleError, enableForm, close, hideTypingIndicator]

theorem onerror_closed (s : Exchange) (h : s.connectionClosed = true) : onerror s = s := by
  simp [onerror, h]

theorem timeout_closed (s : Exchange) (h : s.connectionClosed = true) : timeout s = s := by
  simp [timeout, h]

theorem run_cancellations_closed (es : List Event) (s : Exchange)
    (h : s.connectionClosed = true)
    (hes : ∀ e ∈ es, e = .transportError ∨ e = .timeout) : run s es = s := by
  induction es with
  | nil => rfl
  | cons e rest ih =>
    have he := hes e (List.mem_cons_self _ _)
    have hr : ∀ x ∈ rest, x = .transportError ∨ x = .timeout :=
      fun x hx => hes x (List.mem_cons_of_mem _ hx)
    rw [run_cons]
    rcases he with rfl | rfl
    · rw [show fire s .transportError = s from onerror_closed s h]; exact ih hr
    · rw [show fire s .timeout = s from timeout_closed s h]; exact ih hr

theorem onerror_sets_closed (s : Exchange) : (onerror s).connectionClosed = true := by
  cases hc : s.connectionClosed <;> cases hs : s.hasStartedResponse <;>
    simp [onerror, hc, hs, handleError, enableForm, close, hideTypingIndicator]

/-- C9. With `connectionClosed` already true the transport-error callback and
the timeout callback change nothing (no call is recorded, the state is the
same), so any sequence of them fired on a terminated exchange has the effect
of not firing them; and either callback fired twice in a row has the effect of
firing it once. -/
theorem cancellation_idempotent (s : Exchange) (es : List Event)
    (h : s.connectionClosed = true)
    (hes : ∀ e ∈ es, e = .transportError ∨ e = .timeout) :
    onerror s = s ∧ timeout s = s ∧ run s es = s ∧
    (∀ t : Exchange, onerror (onerror t) = onerror t) ∧
    (∀ t : Exchange, timeout (timeout t) = timeout t) := by
  refine ⟨onerror_closed s h, timeout_closed s h, run_cancellations_closed es s h hes,
    fun t => onerror_closed _ (onerror_sets_closed t), ?_⟩
  intro t
  by_cases hg : (!t.connectionClosed && t.readyState != .CLOSED) = true
  · apply timeout_closed
    cases hs : t.hasStartedResponse <;>
      simp [timeout, hg, hs, handleError, enableForm, close, hideTypingIndicator]
  · have : timeout t = t := by simp [timeout, hg]
    rw [this, this]

theorem run_drop_malformed (es : List Event) (s : Exchange) :
    run s es = run s (es.filter (fun e => decide (e ≠ .message .malformed))) := by
  induction es generalizing s with
  | nil => rfl
  | cons e rest ih =>
    by_cases he : e = .message .malformed
    · subst he
      rw [run_cons, List.filter_cons_of_neg (by simp)]
      exact ih _
    · rw [run_cons, List.filter_cons_of_pos (by simpa using he), run_cons]
      exact ih _

/-- C10. A payload that `JSON.parse` rejects is dropped by `onmessage`: the
whole exchange state is unchanged (accumulated text, both flags, the
connection, the conversation, and no call to `close`, `handleError` or
`enableForm`). Hence a run with malformed payloads anywhere in it ends in the
same state as the run without them, and an `error` event delivered after one
still terminates the exchange. -/
theorem malformed_payload_dropped (s : Exchange) (es : List Event) (v : Scalar) :
    onmessage s .malformed = s ∧
    run s es = run s (es.filter (fun e => decide (e ≠ .message .malformed))) ∧
    (fire (fire s (.message .malformed)) (errorEvent v)).connectionClosed = true ∧
    fire (fire s (.message .malformed)) (errorEvent v) = fire s (errorEvent v) := by
  refine ⟨rfl, run_drop_malformed es s, ?_, rfl⟩
  simp [fire, errorEvent, onmessage, onmessageTry, handleError, enableForm, close,
    hideTypingIndicator]

/-- C6 (what the code does). After a chunk has arrived the timeout callback
does more than set the termination flag: it closes the connection, so that
the rest of the stream is never delivered, and it never calls `enableForm`,
which the transport-error callback does in the same state. -/
theorem timeout_after_content_closes :
    (fire demoExchange (chunkEvent "a")).connectionClosed = false ∧
    (fire demoExchange (chunkEvent "a")).hasStartedResponse = true ∧
    (fire demoExchange (chunkEvent "a")).readyState = .CONNECTING ∧
    (timeout (fire demoExchange (chunkEvent "a"))).readyState = .CLOSED ∧
    (timeout (fire demoExchange (chunkEvent "a"))).calls
      = (fire demoExchange (chunkEvent "a")).calls ++ [.close] ∧
    timeout (fire demoExchange (chunkEvent "a"))
      ≠ { fire demoExchange (chunkEvent "a") with connectionClosed := true } ∧
    enableCount (timeout (fire demoExchange (chunkEvent "a"))) = 0 ∧
    (timeout (fire demoExchange (chunkEvent "a"))).sendDisabled = true ∧
    (timeout (fire demoExchange (chunkEvent "a"))).sendSpinner = true ∧
    enableCount (onerror (fire demoExchange (chunkEvent "a"))) = 1 ∧
    deliver (timeout (fire demoExchange (chunkEvent "a")))
        (.message (.data (some "answer_chunk") (.scalar (.str "b"))))
      = timeout (fire demoExchange (chunkEvent "a")) := by
  refine ⟨by decide, by decide, by decide, by decide, by decide, ?_, by decide, by decide,
    by decide, by decide, by decide⟩
  intro h
  have h2 := congrArg Exchange.readyState h
  revert h2
  decide

/-- The statements the timeout callback executes on an exchange that has no
terminal event and whose connection is not closed, by whether a chunk has
arrived. -/
theorem timeout_before_termination (s : Exchange)
    (h : s.connectionClosed = false) (hr : s.readyState ≠ .CLOSED) :
    (s.hasStartedResponse = false →
      (timeout s).container = removeTyping (removeTyping s.container)
        ++ [.error "Request timed out. Please try again."] ∧
      (timeout s).calls = s.calls ++ [.close, .hideTypingIndicator,
        .handleError "Request timed out. Please try again.",
        .hideTypingIndicator, .enableForm, .enableForm] ∧
      (timeout s).sendSpinner = false ∧
      (timeout s).sendDisabled = decide (jsTrim s.inputValue = "")) ∧
    (s.hasStartedResponse = true →
      timeout s = close { s with connectionClosed := true }) ∧
    (timeout s).connectionClosed = true ∧
    (timeout s).readyState = .CLOSED ∧
    (timeout s).fullResponse = s.fullResponse := by
  cases hs : s.hasStartedResponse <;>
    simp [timeout, h, hr, hs, handleError, enableForm, close, hideTypingIndicator]

theorem timeout_before_termination_witness :
    demoExchange.connectionClosed = false ∧ demoExchange.readyState ≠ .CLOSED ∧
    (timeout demoExchange).connectionClosed = true ∧
    (timeout demoExchange).readyState = .CLOSED :=
  ⟨by decide, by decide,
    (timeout_before_termination demoExchange (by decide) (by decide)).2.2.1,
    (timeout_before_termination demoExchange (by decide) (by decide)).2.2.2.1⟩

theorem transport_error_before_termination_witness :
    demoExchange.connectionClosed = false ∧
    (onerror demoExchange).connectionClosed = true ∧
    (onerror demoExchange).readyState = .CLOSED :=
  ⟨by decide,
    (transport_error_before_termination demoExchange (by decide)).2.2.1,
    (transport_error_before_termination demoExchange (by decide)).2.2.2.1⟩

theorem cancellation_idempotent_witness :
    (onerror demoExchange).connectionClosed = true ∧
    run (onerror demoExchange) [.transportError, .timeout, .timeout] = onerror demoExchange :=
  ⟨by decide,
    (cancellation_idempotent (onerror demoExchange) [.transportError, .timeout, .timeout]
      (by decide) (by simp)).2.2.1⟩

/-! ## Invocations of `enableForm` -/

theorem fire_chunk_frame (s : Exchange) (c : String) :
    (fire s (chunkEvent c)).connectionClosed = s.connectionClosed ∧
    (fire s (chunkEvent c)).readyState = s.readyState ∧
    enableCount (fire s (chunkEvent c)) = enableCount s ∧
    (fire s (chunkEvent c)).hasStartedResponse = true := by
  simp only [fire, chunkEvent, onmessage, onmessageTry, Scalar.toJsString, if_true]
  cases hs : s.hasStartedResponse <;>
    simp [updateBotMessage, hideTypingIndicator, enableCount, List.count_append, hs]

theorem run_chunks_frame (cs : List String) (s : Exchange) :
    (run s (cs.map chunkEvent)).connectionClosed = s.connectionClosed ∧
    (run s (cs.map chunkEvent)).readyState = s.readyState ∧
    enableCount (run s (cs.map chunkEvent)) = enableCount s ∧
    (run s (cs.map chunkEvent)).hasStartedResponse
      = (s.hasStartedResponse || decide (cs ≠ [])) := by
  induction cs generalizing s with
  | nil => simp [run]
  | cons c rest ih =>
    simp only [List.map_cons, run_cons]
    obtain ⟨h1, h2, h3, h4⟩ := ih (fire s (chunkEvent c))
    obtain ⟨g1, g2, g3, g4⟩ := fire_chunk_frame s c
    refine ⟨h1.trans g1, h2.trans g2, h3.trans g3, ?_⟩
    rw [h4, g4]; simp

theorem fire_chunk_no_sources_call (s : Exchange) (c : String) :
    (fire s (chunkEvent c)).calls.count .updateBotMessageSources
      = s.calls.count .updateBotMessageSources := by
  simp only [fire, chunkEvent, onmessage, onmessageTry, Scalar.toJsString, if_true]
  cases hs : s.hasStartedResponse <;>
    simp [updateBotMessage, hideTypingIndicator, List.count_append, hs]

theorem run_chunks_no_sources_call (cs : List String) (s : Exchange)
    (h : s.calls.count .updateBotMessageSources = 0) :
    (run s (cs.map chunkEvent)).calls.count .updateBotMessageSources = 0 := by
  induction cs generalizing s with
  | nil => exact h
  | cons c rest ih =>
    simp only [List.map_cons, run_cons]
    exact ih _ (by rw [fire_chunk_no_sources_call]; exact h)

/-- C2 (what the code does). A `sources` event whose content is a list never
gets past the logging statement `data.content?.substring(0, 30)`: an array has
no `substring`, the call throws, and the `catch` block drops the event. Every
exchange state is left exactly as it was; in particular, on a fresh exchange
that has rendered the chunks `cs` and `c`, after the event the termination
flag is still unset, the connection is still open and `enableForm` has not been
invoked, and no citation has been rendered. -/
theorem sources_list_event_dropped (s : Exchange) (xs : List Source)
    (pg : Page) (message messageId : String) (cs : List String) (c : String) :
    fire s (sourcesEvent (.list xs)) = s ∧
    (fire (run (sendMessage pg message messageId) ((cs ++ [c]).map chunkEvent))
      (sourcesEvent (.list xs))).connectionClosed = false ∧
    (fire (run (sendMessage pg message messageId) ((cs ++ [c]).map chunkEvent))
      (sourcesEvent (.list xs))).readyState = .CONNECTING ∧
    enableCount (fire (run (sendMessage pg message messageId) ((cs ++ [c]).map chunkEvent))
      (sourcesEvent (.list xs))) = 0 ∧
    (fire (run (sendMessage pg message messageId) ((cs ++ [c]).map chunkEvent))
      (sourcesEvent (.list xs))).calls.count .updateBotMessageSources = 0 := by
  have h : ∀ t : Exchange, fire t (sourcesEvent (.list xs)) = t := fun t => rfl
  obtain ⟨f1, f2, f3, _⟩ :=
    run_chunks_frame (cs ++ [c]) (sendMessage pg message messageId)
  refine ⟨h s, ?_, ?_, ?_, ?_⟩
  · rw [h, f1]; rfl
  · rw [h, f2]; rfl
  · rw [h, f3]; rfl
  · rw [h]
    exact run_chunks_no_sources_call (cs ++ [c]) _ rfl

theorem fire_error_enables (s : Exchange) (v : Scalar) :
    (fire s (errorEvent v)).connectionClosed = true ∧
    enableCount (fire s (errorEvent v)) = enableCount s + 2 := by
  simp [fire, errorEvent, onmessage, onmessageTry, handleError, enableForm, close,
    hideTypingIndicator, enableCount, List.count_append]

theorem fire_transportError_enables (s : Exchange) (h : s.connectionClosed = false) :
    (fire s .transportError).connectionClosed = true ∧
    enableCount (fire s .transportError)
      = enableCount s + (if s.hasStartedResponse then 1 else 2) := by
  cases hs : s.hasStartedResponse <;>
    simp [fire, onerror, h, hs, handleError, enableForm, close, hideTypingIndicator,
      enableCount, List.count_append]

theorem fire_timeout_enables (s : Exchange) (h : s.connectionClosed = false)
    (hr : s.readyState ≠ .CLOSED) (hs : s.hasStartedResponse = false) :
    (fire s .timeout).connectionClosed = true ∧
    enableCount (fire s .timeout) = enableCount s + 2 := by
  simp [fire, timeout, h, hr, hs, handleError, enableForm, close, hideTypingIndicator,
    enableCount, List.count_append]

theorem fire_sources_falsy_enables (s : Exchange) (w : Scalar) (hw : w.truthy = false) :
    (fire s (sourcesEvent (.scalar w))).connectionClosed = true ∧
    enableCount (fire s (sourcesEvent (.scalar w))) = enableCount s + 1 := by
  cases w with
  | str t =>
    have ht : t = "" := by simpa [Scalar.truthy] using hw
    subst ht
    cases hb : findBubble s.messageId s.container <;>
      simp [fire, sourcesEvent, onmessage, onmessageTry, updateBotMessageSources, hb,
        enableForm, close, addToConversationHistory, enableCount, List.count_append]
  | null =>
    cases hb : findBubble s.messageId s.container <;>
      simp [fire, sourcesEvent, onmessage, onmessageTry, updateBotMessageSources, hb,
        enableForm, close, addToConversationHistory, enableCount, List.count_append]
  | undef =>
    cases hb : findBubble s.messageId s.container <;>
      simp [fire, sourcesEvent, onmessage, onmessageTry, updateBotMessageSources, hb,
        enableForm, close, addToConversationHistory, enableCount, List.count_append]

/-- C1 (as stated, refuted). An exchange ended by an `error` event invokes
`enableForm` twice (once inside `handleError`, once by the callback), and an
exchange ended by the timeout after a chunk invokes it not at all. -/
theorem enableForm_not_exactly_once :
    (run demoExchange [errorEvent (.str "boom")]).connectionClosed = true ∧
    enableCount (run demoExchange [errorEvent (.str "boom")]) = 2 ∧
    (run demoExchange [chunkEvent "a", .timeout]).connectionClosed = true ∧
    enableCount (run demoExchange [chunkEvent "a", .timeout]) = 0 := by
  refine ⟨by decide, by decide, by decide, by decide⟩

/-- C1 (amended). On a fresh exchange, after any answer chunks `cs`, a
terminal event followed by any further transport-error or timeout callbacks
leads to this many invocations of `enableForm` over the whole exchange: two
for an `error` event; two for a transport error before any chunk and one after
a chunk; two for a timeout before any chunk; one for a `sources` event whose
content is null, missing or the empty string. In each of these cases it is
invoked at least once and at most twice, and the trailing callbacks add none. -/
theorem enableForm_invocations (pg : Page) (message messageId : String)
    (cs : List String) (v w : Scalar) (extras : List Event)
    (hw : w.truthy = false)
    (hex : ∀ e ∈ extras, e = .transportError ∨ e = .timeout) :
    enableCount (run (sendMessage pg message messageId)
      (cs.map chunkEvent ++ errorEvent v :: extras)) = 2 ∧
    enableCount (run (sendMessage pg message messageId)
      (cs.map chunkEvent ++ .transportError :: extras)) = (if cs = [] then 2 else 1) ∧
    enableCount (run (sendMessage pg message messageId) (.timeout :: extras)) = 2 ∧
    enableCount (run (sendMessage pg message messageId)
      (cs.map chunkEvent ++ sourcesEvent (.scalar w) :: extras)) = 1 := by
  obtain ⟨f1, f2, f3, f4⟩ := run_chunks_frame cs (sendMessage pg message messageId)
  have c0 : (sendMessage pg message messageId).connectionClosed = false := rfl
  have e0 : enableCount (sendMessage pg message messageId) = 0 := rfl
  have r0 : (sendMessage pg message messageId).readyState ≠ .CLOSED := by
    simp [sendMessage]
  have s0 : (sendMessage pg message messageId).hasStartedResponse = false := rfl
  rw [c0] at f1; rw [e0] at f3; rw [s0] at f4
  refine ⟨?_, ?_, ?_, ?_⟩
  · obtain ⟨a, b⟩ := fire_error_enables (run (sendMessage pg message messageId)
      (cs.map chunkEvent)) v
    rw [run_append, run_cons, run_cancellations_closed extras _ a hex, b, f3]
  · obtain ⟨a, b⟩ := fire_transportError_enables (run (sendMessage pg message messageId)
      (cs.map chunkEvent)) f1
    rw [run_append, run_cons, run_cancellations_closed extras _ a hex, b, f3, f4]
    cases cs <;> simp
  · obtain ⟨a, b⟩ := fire_timeout_enables (sendMessage pg message messageId) c0 r0 s0
    rw [run_cons, run_cancellations_closed extras _ a hex, b, e0]
  · obtain ⟨a, b⟩ := fire_sources_falsy_enables (run (sendMessage pg message messageId)
      (cs.map chunkEvent)) w hw
    rw [run_append, run_cons, run_cancellations_closed extras _ a hex, b, f3]

theorem enableForm_invocations_witness :
    Scalar.truthy .null = false ∧
    enableCount (run (sendMessage demoPage "hello" "msg_1")
      (["a", "b"].map chunkEvent ++ .transportError :: [.timeout, .transportError])) = 1 :=
  ⟨rfl, by
    simpa using (enableForm_invocations demoPage "hello" "msg_1" ["a", "b"] .null .null
      [.timeout, .transportError] rfl (by simp)).2.1⟩

/-! ## Outcomes of an exchange under the browser's delivery rule -/

theorem exchangeInv_sendMessage (pg : Page) (message messageId : String) :
    ExchangeInv (sendMessage pg message messageId) := by
  simp [ExchangeInv, sendMessage, noticeCount, completionCount]

/-- A message event either leaves the flags, the connection and the outcome
counts alone, or terminates the exchange with exactly one new outcome. -/
theorem onmessage_effect (s : Exchange) (p : Payload) :
    ((onmessage s p).connectionClosed = s.connectionClosed ∧
      (onmessage s p).readyState = s.readyState ∧
      noticeCount (onmessage s p) = noticeCount s ∧
      completionCount (onmessage s p) = completionCount s) ∨
    ((onmessage s p).connectionClosed = true ∧
      (onmessage s p).readyState = .CLOSED ∧
      noticeCount (onmessage s p) + completionCount (onmessage s p)
        = noticeCount s + completionCount s + 1) := by
  cases p with
  | malformed => left; exact ⟨rfl, rfl, rfl, rfl⟩
  | nullValue => left; exact ⟨rfl, rfl, rfl, rfl⟩
  | data ty c =>
    cases c with
    | list xs => left; exact ⟨rfl, rfl, rfl, rfl⟩
    | scalar v =>
      by_cases t1 : ty = some "answer_chunk"
      · left
        cases hs : s.hasStartedResponse <;>
          simp [onmessage, onmessageTry, t1, hs, updateBotMessage, hideTypingIndicator,
            noticeCount, completionCount, List.countP_append, Call.isNotice,
            Call.isCompletion]
      · by_cases t2 : ty = some "sources"
        · cases hb : findBubble s.messageId s.container with
          | none =>
            right
            simp [onmessage, onmessageTry, t2, updateBotMessageSources, hb,
              addToConversationHistory, enableForm, close, noticeCount, completionCount,
              List.countP_append, Call.isNotice, Call.isCompletion]
            omega
          | some b =>
            cases v with
            | str t =>
              by_cases ht : t = ""
              · right
                simp [onmessage, onmessageTry, t2, updateBotMessageSources, hb, ht,
                  addToConversationHistory, enableForm, close, noticeCount, completionCount,
                  List.countP_append, Call.isNotice, Call.isCompletion]
                omega
              · left
                simp [onmessage, onmessageTry, t2, updateBotMessageSources, hb, ht,
                  noticeCount, completionCount, List.countP_append, Call.isNotice,
                  Call.isCompletion]
            | null =>
              right
              simp [onmessage, onmessageTry, t2, updateBotMessageSources, hb,
                addToConversationHistory, enableForm, close, noticeCount, completionCount,
                List.countP_append, Call.isNotice, Call.isCompletion]
              omega
            | undef =>
              right
              simp [onmessage, onmessageTry, t2, updateBotMessageSources, hb,
                addToConversationHistory, enableForm, close, noticeCount, completionCount,
                List.countP_append, Call.isNotice, Call.isCompletion]
              omega
        · by_cases t3 : ty = some "medical_warning"
          · left
            simp [onmessage, onmessageTry, t3, showMedicalWarning, noticeCount,
              completionCount, List.countP_append, Call.isNotice, Call.isCompletion]
          · by_cases t4 : ty = some "error"
            · right
              simp [onmessage, onmessageTry, t4, handleError, enableForm, close,
                hideTypingIndicator, noticeCount, completionCount, List.countP_append,
                Call.isNotice, Call.isCompletion]
              omega
            · left
              simp [onmessage, onmessageTry, t1, t2, t3, t4]

theorem exchangeInv_deliver (s : Exchange) (sig : Signal) (h : ExchangeInv s) :
    ExchangeInv (deliver s sig) := by
  obtain ⟨h1, h2, h3, h4⟩ := h
  by_cases hr : s.readyState = .CLOSED
  · have hc : s.connectionClosed = true := h1.mpr hr
    have same : deliver s sig = s := by
      cases sig <;> simp [deliver, hr, timeout, hc]
    rw [same]
    exact ⟨h1, h2, h3, h4⟩
  · have hc : s.connectionClosed = false := by
      cases hcc : s.connectionClosed
      · rfl
      · exact absurd (h1.mp hcc) hr
    have z := h3 hc
    cases sig with
    | opened =>
      simp only [deliver, hr, if_false]
      refine ⟨?_, h2, h3, h4⟩
      simp [hc]
    | message p =>
      simp only [deliver, hr, if_false]
      rcases onmessage_effect s p with ⟨a, b, c, d⟩ | ⟨a, b, c⟩
      · refine ⟨?_, ?_, ?_, ?_⟩
        · rw [a, b]; exact h1
        · omega
        · intro _; omega
        · intro k; rw [a, hc] at k; exact absurd k (by simp)
      · refine ⟨?_, ?_, ?_, ?_⟩
        · rw [a, b]; simp
        · omega
        · intro k; rw [a] at k; exact absurd k (by simp)
        · intro _ k; omega
    | failed fatal =>
      simp only [deliver, hr, if_false]
      unfold noticeCount completionCount at z
      cases hs : s.hasStartedResponse <;>
        simp [ExchangeInv, onerror, hc, hs, handleError, enableForm, close,
          hideTypingIndicator, noticeCount, completionCount, List.countP_append,
          Call.isNotice, Call.isCompletion]
      all_goals omega
    | timer =>
      unfold noticeCount completionCount at z
      cases hs : s.hasStartedResponse <;>
        simp [ExchangeInv, deliver, timeout, hc, hr, hs, handleError, enableForm, close,
          hideTypingIndicator, noticeCount, completionCount, List.countP_append,
          Call.isNotice, Call.isCompletion]
      all_goals omega

theorem exchangeInv_deliverAll (sigs : List Signal) (s : Exchange) (h : ExchangeInv s) :
    ExchangeInv (deliverAll s sigs) := by
  induction sigs generalizing s with
  | nil => exact h
  | cons sig rest ih => exact ih _ (exchangeInv_deliver s sig h)

/-- C7 (as stated, refuted). An exchange that received a chunk and was then
ended by a transport error is terminated, yet shows no error notice, no
timeout notice, and has not completed through a `sources` event. -/
theorem terminated_without_outcome :
    (deliverAll demoExchange
      [.message (.data (some "answer_chunk") (.scalar (.str "a"))), .failed false]).connectionClosed
        = true ∧
    noticeCount (deliverAll demoExchange
      [.message (.data (some "answer_chunk") (.scalar (.str "a"))), .failed false]) = 0 ∧
    completionCount (deliverAll demoExchange
      [.message (.data (some "answer_chunk") (.scalar (.str "a"))), .failed false]) = 0 := by
  refine ⟨by decide, by decide, by decide⟩

/-- C7 (amended). For every sequence of signals the browser delivers to a fresh
exchange: at most one outcome (an error or timeout notice, or a normal
completion) ever happens; none has happened before termination; and a
terminated exchange has exactly one unless content had already started, in
which case it may have none. -/
theorem at_most_one_outcome (pg : Page) (message messageId : String) (sigs : List Signal) :
    noticeCount (deliverAll (sendMessage pg message messageId) sigs)
      + completionCount (deliverAll (sendMessage pg message messageId) sigs) ≤ 1 ∧
    ((deliverAll (sendMessage pg message messageId) sigs).connectionClosed = false →
      noticeCount (deliverAll (sendMessage pg message messageId) sigs)
        + completionCount (deliverAll (sendMessage pg message messageId) sigs) = 0) ∧
    ((deliverAll (sendMessage pg message messageId) sigs).connectionClosed = true →
      (deliverAll (sendMessage pg message messageId) sigs).hasStartedResponse = false →
      noticeCount (deliverAll (sendMessage pg message messageId) sigs)
        + completionCount (deliverAll (sendMessage pg message messageId) sigs) = 1) := by
  obtain ⟨_, h2, h3, h4⟩ :=
    exchangeInv_deliverAll sigs _ (exchangeInv_sendMessage pg message messageId)
  refine ⟨h2, h3, ?_⟩
  intro hc hs
  by_contra hne
  have hz : noticeCount (deliverAll (sendMessage pg message messageId) sigs)
      + completionCount (deliverAll (sendMessage pg message messageId) sigs) = 0 := by omega
  rw [h4 hc hz] at hs
  exact absurd hs (by simp)

theorem at_most_one_outcome_witness :
    (deliverAll (sendMessage demoPage "hello" "msg_1") [.opened, .timer]).connectionClosed
      = true ∧
    (deliverAll (sendMessage demoPage "hello" "msg_1") [.opened, .timer]).hasStartedResponse
      = false ∧
    noticeCount (deliverAll (sendMessage demoPage "hello" "msg_1") [.opened, .timer])
      + completionCount (deliverAll (sendMessage demoPage "hello" "msg_1") [.opened, .timer])
      = 1 :=
  ⟨by decide, by decide,
    (at_most_one_outcome demoPage "hello" "msg_1" [.opened, .timer]).2.2
      (by decide) (by decide)⟩

/-- C8. Terminal states are absorbing. Once an exchange is terminated, every
signal the browser delivers to it (a message of any type, a transport error,
the timer) leaves the whole state unchanged, calls included: every terminating
path has closed the `EventSource` (`readyState` is `CLOSED`), which then fires
no further message or error event, and the transport-error and timeout
callbacks are guarded by the termination flag. -/
theorem terminated_is_absorbing (pg : Page) (message messageId : String)
    (sigs : List Signal) (sig : Signal)
    (h : (deliverAll (sendMessage pg message messageId) sigs).connectionClosed = true) :
    (deliverAll (sendMessage pg message messageId) sigs).readyState = .CLOSED ∧
    deliver (deliverAll (sendMessage pg message messageId) sigs) sig
      = deliverAll (sendMessage pg message messageId) sigs ∧
    onerror (deliverAll (sendMessage pg message messageId) sigs)
      = deliverAll (sendMessage pg message messageId) sigs ∧
    timeout (deliverAll (sendMessage pg message messageId) sigs)
      = deliverAll (sendMessage pg message messageId) sigs := by
  obtain ⟨h1, _, _, _⟩ :=
    exchangeInv_deliverAll sigs _ (exchangeInv_sendMessage pg message messageId)
  have hr := h1.mp h
  refine ⟨hr, ?_, onerror_closed _ h, timeout_closed _ h⟩
  cases sig <;> simp [deliver, hr, timeout, h]

theorem terminated_is_absorbing_witness :
    (deliverAll (sendMessage demoPage "hello" "msg_1")
      [.message (.data (some "error") (.scalar (.str "boom")))]).connectionClosed = true ∧
    deliver (deliverAll (sendMessage demoPage "hello" "msg_1")
        [.message (.data (some "error") (.scalar (.str "boom")))])
        (.message (.data (some "answer_chunk") (.scalar (.str "late"))))
      = deliverAll (sendMessage demoPage "hello" "msg_1")
        [.message (.data (some "error") (.scalar (.str "boom")))] :=
  ⟨by decide,
    (terminated_is_absorbing demoPage "hello" "msg_1"
      [.message (.data (some "error") (.scalar (.str "boom")))]
      (.message (.data (some "answer_chunk") (.scalar (.str "late")))) (by decide)).2.1⟩

/-! ## Input validation -/

/-- C11 (as stated, refuted). A submit with a blank input ends in a
`showToast` call, and `showToast` only writes to the console: the page after
it is the page before it, with an empty conversation and nothing shown to the
user. -/
theorem rejected_submit_shows_nothing :
    handleSubmit { demoPage with inputValue := "   " } "msg_1"
      = .rejected ⟨"Please enter a message", "warning"⟩
          { demoPage with inputValue := "   " } ∧
    showToast { demoPage with inputValue := "   " } ⟨"Please enter a message", "warning"⟩
      = { demoPage with inputValue := "   " } ∧
    ({ demoPage with inputValue := "   " } : Page).container = [] := by
  refine ⟨by decide, rfl, rfl⟩

/-- C11 (amended). `handleSubmit` calls `sendMessage` exactly when the trimmed
input is non-empty and at most 1000 code units long, and then with exactly the
trimmed text. In every other case it calls `showToast` with type `warning`
("Please enter a message" for an empty text, the too-long message otherwise),
which only logs: the page is left exactly as it was, no message is rendered
and no `EventSource` is created. -/
theorem handleSubmit_validates (pg : Page) (messageId : String) :
    ((∃ e, handleSubmit pg messageId = .sent e) ↔
      (jsTrim pg.inputValue ≠ "" ∧ jsLength (jsTrim pg.inputValue) ≤ 1000)) ∧
    (jsTrim pg.inputValue ≠ "" ∧ jsLength (jsTrim pg.inputValue) ≤ 1000 →
      handleSubmit pg messageId = .sent (sendMessage pg (jsTrim pg.inputValue) messageId)) ∧
    (jsTrim pg.inputValue = "" →
      handleSubmit pg messageId = .rejected ⟨"Please enter a message", "warning"⟩ pg) ∧
    (jsTrim pg.inputValue ≠ "" → 1000 < jsLength (jsTrim pg.inputValue) →
      handleSubmit pg messageId
        = .rejected ⟨"Message too long. Please keep it under 1000 characters.", "warning"⟩
            pg) := by
  by_cases h1 : jsTrim pg.inputValue = ""
  · simp [handleSubmit, h1, showToast]
  · by_cases h2 : jsLength (jsTrim pg.inputValue) > 1000
    · have h3 : ¬ jsLength (jsTrim pg.inputValue) ≤ 1000 := by omega
      simp [handleSubmit, h1, h2, h3, showToast]
    · have h3 : jsLength (jsTrim pg.inputValue) ≤ 1000 := by omega
      have h4 : ¬ 1000 < jsLength (jsTrim pg.inputValue) := by omega
      simp [handleSubmit, h1, h2, h3, h4]

/-- Witness for C11 on the input "hello". -/
theorem handleSubmit_validates_witness :
    (jsTrim demoPage.inputValue ≠ "" ∧ jsLength (jsTrim demoPage.inputValue) ≤ 1000) ∧
    handleSubmit demoPage "msg_1" = .sent (sendMessage demoPage "hello" "msg_1") :=
  ⟨by decide, (handleSubmit_validates demoPage "msg_1").2.1 (by decide)⟩

theorem jsLength_replicate (n : Nat) : jsLength ⟨List.replicate n 'a'⟩ = n := by
  induction n with
  | zero => rfl
  | succ k ih =>
    simp only [jsLength, List.replicate_succ, List.map_cons, List.sum_cons] at ih ⊢
    rw [ih]
    have : ('a'.toNat > 0xFFFF) = False := by decide
    simp only [this, if_false]
    omega

/-- C12 (as stated, refuted). A quick-action button whose `data-query` is 1001
characters long reaches `sendMessage` with that text: the user message is
rendered and the `EventSource` is created, without any warning. And where
`handleSubmit` does reject a text, the warning is a `showToast` call that
leaves the page as it was. -/
theorem quick_action_sends_long_text :
    jsLength ⟨List.replicate 1001 'a'⟩ = 1001 ∧
    quickActionClick demoPage (some ⟨List.replicate 1001 'a'⟩) "msg_1"
      = some (sendMessage { demoPage with inputValue := ⟨List.replicate 1001 'a'⟩ }
          ⟨List.replicate 1001 'a'⟩ "msg_1") ∧
    (sendMessage { demoPage with inputValue := ⟨List.replicate 1001 'a'⟩ }
      ⟨List.replicate 1001 'a'⟩ "msg_1").readyState = .CONNECTING ∧
    handleSubmit { demoPage with inputValue := "" } "msg_1"
      = .rejected ⟨"Please enter a message", "warning"⟩
          { demoPage with inputValue := "" } := by
  refine ⟨jsLength_replicate 1001, ?_, rfl, by decide⟩
  have hne : (⟨List.replicate 1001 'a'⟩ : String) ≠ "" := by
    intro h
    have h2 : (List.replicate 1001 'a').length = ([] : List Char).length :=
      congrArg List.length (congrArg String.data h)
    rw [List.length_replicate] at h2
    exact absurd h2 (by decide)
  simp only [quickActionClick, hne, if_false, sendQuickAction]

/-- C12 (amended). Of the two callers of `sendMessage`, `handleSubmit` enforces
the precondition: the text it passes is non-empty and at most 1000 code units
long, and a violating input ends in a `showToast` call of type `warning`
that only logs, with the page left as it was and nothing sent. The
quick-action path only requires a non-empty `data-query` and passes it on
unchanged, whatever its length. -/
theorem callers_of_sendMessage (pg : Page) (messageId q : String) (e : Exchange) :
    (handleSubmit pg messageId = .sent e →
      ∃ text, text ≠ "" ∧ jsLength text ≤ 1000 ∧ e = sendMessage pg text messageId) ∧
    (¬ (jsTrim pg.inputValue ≠ "" ∧ jsLength (jsTrim pg.inputValue) ≤ 1000) →
      ∃ m, handleSubmit pg messageId = .rejected ⟨m, "warning"⟩ pg) ∧
    (quickActionClick pg (some q) messageId = some e →
      q ≠ "" ∧ e = sendMessage { pg with inputValue := q } q messageId) ∧
    (q ≠ "" → quickActionClick pg (some q) messageId
      = some (sendMessage { pg with inputValue := q } q messageId)) ∧
    quickActionClick pg none messageId = none := by
  refine ⟨?_, ?_, ?_, ?_, rfl⟩
  · intro h
    by_cases h1 : jsTrim pg.inputValue = ""
    · simp [handleSubmit, h1] at h
    · by_cases h2 : jsLength (jsTrim pg.inputValue) > 1000
      · simp [handleSubmit, h1, h2] at h
      · refine ⟨jsTrim pg.inputValue, h1, by omega, ?_⟩
        simp [handleSubmit, h1, h2] at h
        exact h.symm
  · intro h
    by_cases h1 : jsTrim pg.inputValue = ""
    · exact ⟨"Please enter a message", by simp [handleSubmit, h1, showToast]⟩
    · by_cases h2 : jsLength (jsTrim pg.inputValue) > 1000
      · exact ⟨"Message too long. Please keep it under 1000 characters.",
          by simp [handleSubmit, h1, h2, showToast]⟩
      · exact absurd ⟨h1, by omega⟩ h
  · intro h
    by_cases hq : q = ""
    · simp [quickActionClick, hq] at h
    · simp [quickActionClick, hq, sendQuickAction] at h
      exact ⟨hq, h.symm⟩
  · intro hq
    simp [quickActionClick, hq, sendQuickAction]

/-- Witness for C12 (amended) on the input "hello" and the query "fever". -/
theorem callers_of_sendMessage_witness :
    handleSubmit demoPage "msg_1" = .sent (sendMessage demoPage "hello" "msg_1") ∧
    ("fever" : String) ≠ "" ∧
    quickActionClick demoPage (some "fever") "msg_1"
      = some (sendMessage { demoPage with inputValue := "fever" } "fever" "msg_1") :=
  ⟨by decide, by decide,
    (callers_of_sendMessage demoPage "msg_1" "fever"
      (sendMessage demoPage "hello" "msg_1")).2.2.2.1 (by decide)⟩

/-! ## The send button during an exchange -/

/-- A message event that leaves the exchange unterminated left it so before
and does not touch the send button. -/
theorem onmessage_open_keeps_button (s : Exchange) (p : Payload)
    (h : (onmessage s p).connectionClosed = false) :
    s.connectionClosed = false ∧ (onmessage s p).sendDisabled = s.sendDisabled := by
  cases p with
  | malformed => exact ⟨h, rfl⟩
  | nullValue => exact ⟨h, rfl⟩
  | data ty c =>
    cases c with
    | list xs => exact ⟨h, rfl⟩
    | scalar v =>
      by_cases t1 : ty = some "answer_chunk"
      · revert h
        cases hs : s.hasStartedResponse <;>
          simp [onmessage, onmessageTry, t1, hs, updateBotMessage, hideTypingIndicator]
      · by_cases t2 : ty = some "sources"
        · revert h
          cases hb : findBubble s.messageId s.container with
          | none =>
            simp [onmessage, onmessageTry, t2, updateBotMessageSources, hb,
              addToConversationHistory, enableForm, close]
          | some b =>
            cases v with
            | str t =>
              by_cases ht : t = ""
              · simp [onmessage, onmessageTry, t2, updateBotMessageSources, hb, ht,
                  addToConversationHistory, enableForm, close]
              · simp [onmessage, onmessageTry, t2, updateBotMessageSources, hb, ht]
            | null =>
              simp [onmessage, onmessageTry, t2, updateBotMessageSources, hb,
                addToConversationHistory, enableForm, close]
            | undef =>
              simp [onmessage, onmessageTry, t2, updateBotMessageSources, hb,
                addToConversationHistory, enableForm, close]
        · by_cases t3 : ty = some "medical_warning"
          · revert h
            simp [onmessage, onmessageTry, t3, showMedicalWarning]
          · by_cases t4 : ty = some "error"
            · revert h
              simp [onmessage, onmessageTry, t4, handleError, enableForm, close,
                hideTypingIndicator]
            · revert h
              simp [onmessage, onmessageTry, t1, t2, t3, t4]

theorem fire_open_keeps_button (s : Exchange) (e : Event)
    (h : (fire s e).connectionClosed = false) :
    s.connectionClosed = false ∧ (fire s e).sendDisabled = s.sendDisabled := by
  cases e with
  | message p => exact onmessage_open_keeps_button s p h
  | transportError =>
    have := onerror_sets_closed s
    simp only [fire] at h
    rw [this] at h
    exact absurd h (by simp)
  | timeout =>
    simp only [fire] at h ⊢
    by_cases hg : (!s.connectionClosed && s.readyState != .CLOSED) = true
    · exfalso
      revert h
      cases hs : s.hasStartedResponse <;>
        simp [timeout, hg, hs, handleError, enableForm, close, hideTypingIndicator]
    · have same : timeout s = s := by simp [timeout, hg]
      rw [same] at h ⊢
      exact ⟨h, rfl⟩

theorem run_open_keeps_button (es : List Event) (s : Exchange)
    (h : (run s es).connectionClosed = false) :
    s.connectionClosed = false ∧ (run s es).sendDisabled = s.sendDisabled := by
  induction es generalizing s with
  | nil => exact ⟨h, rfl⟩
  | cons e rest ih =>
    rw [run_cons] at h ⊢
    obtain ⟨a, b⟩ := ih (fire s e) h
    obtain ⟨c, d⟩ := fire_open_keeps_button s e a
    exact ⟨c, b.trans d⟩

/-- C13 (as stated, refuted). While the exchange is still running, typing one
character into the input makes `handleInputChange` enable the send button. -/
theorem typing_enables_button_mid_exchange :
    demoExchange.sendDisabled = true ∧
    (typeInput demoExchange "x").connectionClosed = false ∧
    (typeInput demoExchange "x").sendDisabled = false ∧
    (typeInput (fire demoExchange (chunkEvent "a")) "x").connectionClosed = false ∧
    (typeInput (fire demoExchange (chunkEvent "a")) "x").sendDisabled = false := by
  refine ⟨by decide, by decide, by decide, by decide, by decide⟩

/-- C13 (amended). `sendMessage` appends exactly one user message (followed by
the typing indicator) and disables the send button, and the button stays
disabled under every callback of the exchange for as long as the exchange is
not terminated. `handleInputChange` is not tied to the exchange: on every
input event it sets the button from the length of the input alone, enabling
it for 1 to 1000 code units. -/
theorem send_disables_button (pg : Page) (message messageId value : String)
    (es : List Event) (s : Exchange) :
    (sendMessage pg message messageId).container
      = pg.container ++ [.user (sanitizeInput message), .typing] ∧
    (sendMessage pg message messageId).sendDisabled = true ∧
    ((run (sendMessage pg message messageId) es).connectionClosed = false →
      (run (sendMessage pg message messageId) es).sendDisabled = true) ∧
    (typeInput s value).sendDisabled
      = (decide (jsLength value = 0) || decide (jsLength value > 1000)) ∧
    (typeInput s value).connectionClosed = s.connectionClosed := by
  refine ⟨by simp [sendMessage], rfl, ?_, rfl, rfl⟩
  intro h
  rw [(run_open_keeps_button es _ h).2]
  rfl

/-- Witness for C13 (amended): two chunks and a warning leave the button
disabled. -/
theorem send_disables_button_witness :
    (run (sendMessage demoPage "hello" "msg_1")
      [chunkEvent "a", warningEvent (.str "w"), chunkEvent "b"]).connectionClosed = false ∧
    (run (sendMessage demoPage "hello" "msg_1")
      [chunkEvent "a", warningEvent (.str "w"), chunkEvent "b"]).sendDisabled = true :=
  ⟨by decide,
    (send_disables_button demoPage "hello" "msg_1" ""
      [chunkEvent "a", warningEvent (.str "w"), chunkEvent "b"] demoExchange).2.2.1
      (by decide)⟩

/-- C19. A `medical_warning` event with string content, in any state of the
exchange: one advisory banner with that content is appended to the
conversation and `showMedicalWarning` is the only call made; the accumulated
text, both flags, the connection and the form are unchanged, so the exchange
is not terminated and the form is not re-enabled. -/
theorem warning_event_only_renders_banner (s : Exchange) (c : String) :
    (fire s (warningEvent (.str c))).container = s.container ++ [.warning c] ∧
    (fire s (warningEvent (.str c))).calls = s.calls ++ [.showMedicalWarning c] ∧
    (fire s (warningEvent (.str c))).fullResponse = s.fullResponse ∧
    (fire s (warningEvent (.str c))).hasStartedResponse = s.hasStartedResponse ∧
    (fire s (warningEvent (.str c))).connectionClosed = s.connectionClosed ∧
    (fire s (warningEvent (.str c))).readyState = s.readyState ∧
    (fire s (warningEvent (.str c))).sendDisabled = s.sendDisabled ∧
    (fire s (warningEvent (.str c))).sendSpinner = s.sendSpinner ∧
    enableCount (fire s (warningEvent (.str c))) = enableCount s := by
  simp [fire, warningEvent, onmessage, onmessageTry, showMedicalWarning,
    Scalar.toJsString, enableCount, List.count_append]

/-! ## Rendering of sources -/

/-- The last element of `splitPath xs` has no separator and is either all of
`xs` (when the split has one part) or what follows a separator in `xs`. -/
theorem splitPath_last (xs : List Char) :
    ∃ seg0 segs, splitPath xs = seg0 :: segs ∧
      (∀ ch ∈ (seg0 :: segs).getLast?.getD [], isPathSeparator ch = false) ∧
      ((segs = [] ∧ xs = (seg0 :: segs).getLast?.getD []) ∨
       (segs ≠ [] ∧ ∃ pre c, isPathSeparator c = true ∧
          xs = pre ++ c :: (seg0 :: segs).getLast?.getD [])) := by
  induction xs with
  | nil => exact ⟨[], [], rfl, by simp, Or.inl ⟨rfl, rfl⟩⟩
  | cons c rest ih =>
    obtain ⟨seg0, segs, hsplit, hno, hcase⟩ := ih
    by_cases hc : isPathSeparator c = true
    · refine ⟨[], seg0 :: segs, by simp [splitPath, hc, hsplit], ?_, Or.inr ⟨by simp, ?_⟩⟩
      · simpa [List.getLast?_cons_cons] using hno
      · rcases hcase with ⟨_, hx⟩ | ⟨_, pre, c2, hc2, hx⟩
        · exact ⟨[], c, hc, by simp [List.getLast?_cons_cons, ← hx]⟩
        · refine ⟨c :: pre, c2, hc2, ?_⟩
          simp only [List.getLast?_cons_cons, List.cons_append]
          rw [← hx]
    · have hc2 : isPathSeparator c = false := by simpa using hc
      refine ⟨c :: seg0, segs, by simp [splitPath, hc2, hsplit], ?_, ?_⟩
      · rcases hcase with ⟨hs, hx⟩ | ⟨hs, _⟩
        · subst hs
          simp only [List.getLast?_singleton, Option.getD_some] at hno hx ⊢
          intro ch hch
          rcases List.mem_cons.mp hch with rfl | hm
          · exact hc2
          · exact hno ch hm
        · obtain ⟨b, l, rfl⟩ := List.exists_cons_of_ne_nil hs
          simpa [List.getLast?_cons_cons] using hno
      · rcases hcase with ⟨hs, hx⟩ | ⟨hs, pre, c3, hc3, hx⟩
        · subst hs
          left
          simp only [List.getLast?_singleton, Option.getD_some] at hx ⊢
          exact ⟨trivial, by rw [← hx]⟩
        · right
          obtain ⟨b, l, rfl⟩ := List.exists_cons_of_ne_nil hs
          refine ⟨by simp, c :: pre, c3, hc3, ?_⟩
          simp only [List.getLast?_cons_cons, List.cons_append] at hx ⊢
          rw [← hx]

/-- The text `pop()` returns is the part of the path after its last separator,
or the whole path when it has none. -/
theorem lastSegment_spec (source : String) :
    (∀ ch ∈ (lastSegment source).data, isPathSeparator ch = false) ∧
    (source.data = (lastSegment source).data ∨
      ∃ pre c, isPathSeparator c = true ∧
        source.data = pre ++ c :: (lastSegment source).data) := by
  obtain ⟨seg0, segs, hsplit, hno, hcase⟩ := splitPath_last source.data
  have hl : (lastSegment source).data = (seg0 :: segs).getLast?.getD [] := by
    simp [lastSegment, hsplit]
  rw [hl]
  refine ⟨hno, ?_⟩
  rcases hcase with ⟨_, hx⟩ | ⟨_, h⟩
  · exact Or.inl hx
  · exact Or.inr h

theorem intLog_two_eq (q : ℚ) (e : ℤ) (hq : 0 < q) (h1 : (2 : ℚ) ^ e ≤ q)
    (h2 : q < (2 : ℚ) ^ (e + 1)) : Int.log 2 q = e := by
  have a : e ≤ Int.log 2 q :=
    (Int.zpow_le_iff_le_log (by norm_num) hq).mp (by exact_mod_cast h1)
  have b : Int.log 2 q < e + 1 :=
    (Int.lt_zpow_iff_log_lt (by norm_num) hq).mp (by exact_mod_cast h2)
  omega

theorem floor_eq_of (x : ℚ) (n : ℤ) (h1 : (n : ℚ) ≤ x) (h2 : x < n + 1) : ⌊x⌋ = n :=
  Int.floor_eq_iff.mpr ⟨h1, h2⟩

/-- In double arithmetic `0.7 * 100` is exactly 70, so the default score is
shown as 70 percent. -/
theorem displayedPercent_default : displayedPercent defaultCredibility = some 70 := by
  have hlog : Int.log 2 |defaultCredibility * 100| = 6 := by
    apply intLog_two_eq <;> norm_num [defaultCredibility, abs_of_pos]
  have hfl : ⌊defaultCredibility * 100 / 2 ^ (-46 : ℤ)⌋ = 4925812092436479 := by
    apply floor_eq_of <;> norm_num [defaultCredibility]
  have hr : roundHalfEven (defaultCredibility * 100 / 2 ^ (-46 : ℤ)) = 4925812092436480 := by
    unfold roundHalfEven
    rw [hfl]
    norm_num [defaultCredibility]
  have hne : defaultCredibility * 100 ≠ 0 := by norm_num [defaultCredibility]
  have hd : toDouble (defaultCredibility * 100) = some 70 := by
    unfold toDouble
    have hp : max ((6 : ℤ) - 52) (-1074) = -46 := by norm_num
    simp only [hne, if_false, hlog, hp, hr]
    norm_num
  unfold displayedPercent
  rw [hd]
  simp only [Option.map_some']
  congr 1
  apply floor_eq_of <;> norm_num

/-- The double written `0.015` times 100 is rounded to the double 1.5, which
`Math.round` takes to 2, although a hundred times that double is below 1.5. -/
theorem displayedPercent_double_product :
    displayedPercent (1080863910568919 / 72057594037927936) = some 2 ∧
    ⌊(1080863910568919 / 72057594037927936 : ℚ) * 100 + 1 / 2⌋ = 1 := by
  have hlog : Int.log 2 |(1080863910568919 / 72057594037927936 : ℚ) * 100| = 0 := by
    apply intLog_two_eq <;> norm_num [abs_of_pos]
  have hfl : ⌊(1080863910568919 / 72057594037927936 : ℚ) * 100 / 2 ^ (-52 : ℤ)⌋
      = 6755399441055743 := by
    apply floor_eq_of <;> norm_num
  have hr : roundHalfEven ((1080863910568919 / 72057594037927936 : ℚ) * 100 / 2 ^ (-52 : ℤ))
      = 6755399441055744 := by
    unfold roundHalfEven
    rw [hfl]
    norm_num
  have hne : (1080863910568919 / 72057594037927936 : ℚ) * 100 ≠ 0 := by norm_num
  have hd : toDouble ((1080863910568919 / 72057594037927936 : ℚ) * 100) = some (3 / 2) := by
    unfold toDouble
    have hp : max ((0 : ℤ) - 52) (-1074) = -52 := by norm_num
    have hv : ((6755399441055744 : ℤ) : ℚ) * 2 ^ (-52 : ℤ) = 3 / 2 := by norm_num
    have ha : |(3 / 2 : ℚ)| = 3 / 2 := abs_of_pos (by norm_num)
    simp only [hne, if_false, hlog, hp, hr, hv, ha]
    norm_num
  refine ⟨?_, ?_⟩
  · unfold displayedPercent
    rw [hd]
    simp only [Option.map_some']
    congr 1
    apply floor_eq_of <;> norm_num
  · apply floor_eq_of <;> norm_num

/-- C14 (as stated, refuted). A credibility of 0 is present and lies in [0,1],
yet the score rendered is the default 0.7 and the percentage shown is 70, not
0; likewise a name or an icon that is present but empty is replaced by its
default. And for the credibility that is the double written `0.015`, the
percentage shown is 2, while a hundred times that number rounds to 1. -/
theorem falsy_fields_replaced_by_defaults :
    (sourceFields (.obj ⟨some "WHO", some 0, some "W"⟩)).credibilityScore
      = defaultCredibility ∧
    defaultCredibility ≠ 0 ∧
    renderSources [.obj ⟨some "WHO", some 0, some "W"⟩]
      = some [⟨"W", sanitizeInput "WHO", defaultCredibility, some 70⟩] ∧
    (sourceFields (.obj ⟨some "", some 1, some ""⟩)).displayName = "Unknown Source" ∧
    (sourceFields (.obj ⟨some "", some 1, some ""⟩)).icon = "📚" ∧
    displayedPercent (sourceFields (.obj ⟨some "WHO",
      some (1080863910568919 / 72057594037927936), some "W"⟩)).credibilityScore = some 2 ∧
    ⌊(1080863910568919 / 72057594037927936 : ℚ) * 100 + 1 / 2⌋ = 1 := by
  refine ⟨by simp [sourceFields, orNumber], by norm_num [defaultCredibility], ?_,
    by simp [sourceFields, orString], by simp [sourceFields, orString], ?_,
    displayedPercent_double_product.2⟩
  · simp [renderSources, sourceFields, orNumber, orString, displayedPercent_default]
  · have hs : (sourceFields (.obj ⟨some "WHO",
        some (1080863910568919 / 72057594037927936), some "W"⟩)).credibilityScore
        = 1080863910568919 / 72057594037927936 := by
      simp [sourceFields, orNumber]
    rw [hs]
    exact displayedPercent_double_product.1

/-- C14 (amended). For a source given as an object, `renderSources` uses the
`name`, `credibility` and `icon` properties when they are present and truthy,
and the defaults ("Unknown Source", 0.7, the book glyph) when a property is
missing or falsy: an empty string for name and icon, zero for credibility.
The item rendered carries the icon, the sanitized display name, and as its
percentage `Math.round(score * 100)` of the score so chosen, computed in
double arithmetic; for a missing or zero credibility that is 70. -/
theorem object_source_fields (o : SourceObj) (n i : String) (c : ℚ) :
    (o.name = some n → n ≠ "" → (sourceFields (.obj o)).displayName = n) ∧
    (o.name = none ∨ o.name = some "" →
      (sourceFields (.obj o)).displayName = "Unknown Source") ∧
    (o.credibility = some c → c ≠ 0 → (sourceFields (.obj o)).credibilityScore = c) ∧
    (o.credibility = none ∨ o.credibility = some 0 →
      (sourceFields (.obj o)).credibilityScore = defaultCredibility) ∧
    (o.icon = some i → i ≠ "" → (sourceFields (.obj o)).icon = i) ∧
    (o.icon = none ∨ o.icon = some "" → (sourceFields (.obj o)).icon = "📚") ∧
    renderSources [.obj o]
      = some [⟨(sourceFields (.obj o)).icon,
               sanitizeInput (sourceFields (.obj o)).displayName,
               (sourceFields (.obj o)).credibilityScore,
               displayedPercent (sourceFields (.obj o)).credibilityScore⟩] ∧
    (o.credibility = some c → c ≠ 0 →
      displayedPercent (sourceFields (.obj o)).credibilityScore
        = (toDouble (c * 100)).map (fun x => ⌊x + 1 / 2⌋)) ∧
    (o.credibility = none ∨ o.credibility = some 0 →
      displayedPercent (sourceFields (.obj o)).credibilityScore = some 70) := by
  refine ⟨?_, ?_, ?_, ?_, ?_, ?_, ?_, ?_, ?_⟩
  · intro h hn; simp [sourceFields, orString, h, hn]
  · rintro (h | h) <;> simp [sourceFields, orString, h]
  · intro h hc; simp [sourceFields, orNumber, h, hc]
  · rintro (h | h) <;> simp [sourceFields, orNumber, h]
  · intro h hi; simp [sourceFields, orString, h, hi]
  · rintro (h | h) <;> simp [sourceFields, orString, h]
  · simp [renderSources]
  · intro h hc
    have hs : (sourceFields (.obj o)).credibilityScore = c := by
      simp [sourceFields, orNumber, h, hc]
    rw [hs]
    rfl
  · intro h
    have hs : (sourceFields (.obj o)).credibilityScore = defaultCredibility := by
      rcases h with h | h <;> simp [sourceFields, orNumber, h]
    rw [hs]
    exact displayedPercent_default

/-- Witness for C14 (amended): a source with all three properties set, the
credibility being the double 0.75. -/
theorem object_source_fields_witness :
    (sourceFields (.obj ⟨some "WHO", some (3 / 4), some "W"⟩)).displayName = "WHO" ∧
    (sourceFields (.obj ⟨some "WHO", some (3 / 4), some "W"⟩)).credibilityScore = 3 / 4 ∧
    (sourceFields (.obj ⟨some "WHO", some (3 / 4), some "W"⟩)).icon = "W" ∧
    displayedPercent (sourceFields (.obj ⟨some "WHO", none, some "W"⟩)).credibilityScore
      = some 70 :=
  ⟨(object_source_fields ⟨some "WHO", some (3 / 4), some "W"⟩ "WHO" "W" (3 / 4)).1
      rfl (by decide),
    (object_source_fields ⟨some "WHO", some (3 / 4), some "W"⟩ "WHO" "W" (3 / 4)).2.2.1
      rfl (by norm_num),
    (object_source_fields ⟨some "WHO", some (3 / 4), some "W"⟩ "WHO" "W" (3 / 4)).2.2.2.2.1
      rfl (by decide),
    (object_source_fields ⟨some "WHO", none, some "W"⟩ "WHO" "W" 0).2.2.2.2.2.2.2.2
      (Or.inl rfl)⟩

/-- C15 (as stated, refuted). For a path that ends in a separator, and for the
empty string, the part after the last separator is empty, and the display
name is "Medical Reference" instead. -/
theorem trailing_separator_path_name :
    lastSegment "docs/" = "" ∧
    (sourceFields (.path "docs/")).displayName = "Medical Reference" ∧
    lastSegment "" = "" ∧
    (sourceFields (.path "")).displayName = "Medical Reference" := by
  refine ⟨by decide, by decide, by decide, by decide⟩

/-- C15 (amended). For a source given as a bare string, the segment
`renderSources` takes contains no separator and is the part of the string
after its last `/` or `\` (the whole string when it has none); the display
name is that segment, or "Medical Reference" when the segment is empty; the
score is 0.7, shown as 70 percent, and the icon the book glyph. -/
theorem path_source_fields (source : String) :
    (∀ ch ∈ (lastSegment source).data, isPathSeparator ch = false) ∧
    (source.data = (lastSegment source).data ∨
      ∃ pre c, isPathSeparator c = true ∧
        source.data = pre ++ c :: (lastSegment source).data) ∧
    (sourceFields (.path source)).displayName
      = (if lastSegment source = "" then "Medical Reference" else lastSegment source) ∧
    (sourceFields (.path source)).credibilityScore = defaultCredibility ∧
    (sourceFields (.path source)).icon = "📚" ∧
    renderSources [.path source]
      = some [⟨"📚", sanitizeInput (sourceFields (.path source)).displayName,
               defaultCredibility, some 70⟩] := by
  refine ⟨(lastSegment_spec source).1, (lastSegment_spec source).2, ?_, rfl, rfl, ?_⟩
  · simp [sourceFields, orString]
  · simp [renderSources, sourceFields, displayedPercent_default]

/-! ## Service worker -/

/-- C16. In the fetch handler, a cache hit is returned as it is and
`fetch` is not called; on a miss the handler continues with
`fetch(event.request)`, called once, and the promise it continues with is that
fetch, whose response, when it arrives, is the response served. The URL test
for `/get` and `/feedback` changes nothing: the handler behaves the same for
every URL. -/
theorem cache_first_then_network (request : Request) (cached fetched : Response)
    (network : Settled Response) (cacheMatch : Settled (Option Response)) (url : String) :
    (cacheThen request (some cached) network).promise = .fulfilled cached ∧
    (cacheThen request (some cached) network).networkCalls = 0 ∧
    (onFetch request (.fulfilled (some cached)) network).promise = .fulfilled (some cached) ∧
    (onFetch request (.fulfilled (some cached)) network).networkCalls = 0 ∧
    (cacheThen request none network).promise = network ∧
    (cacheThen request none network).networkCalls = 1 ∧
    (onFetch request (.fulfilled none) network).networkCalls = 1 ∧
    (onFetch request (.fulfilled none) (.fulfilled fetched)).promise
      = .fulfilled (some fetched) ∧
    (onFetch { request with url := url } cacheMatch network).promise
      = (onFetch request cacheMatch network).promise ∧
    (onFetch { request with url := url } cacheMatch network).networkCalls
      = (onFetch request cacheMatch network).networkCalls := by
  have hthen : ∀ (rq : Request) (resp : Option Response),
      (cacheThen rq resp network).promise
        = (match resp with | some c => .fulfilled c | none => network) ∧
      (cacheThen rq resp network).networkCalls
        = (match resp with | some _ => 0 | none => 1) := by
    intro rq resp
    cases resp with
    | some c => exact ⟨rfl, rfl⟩
    | none => simp only [cacheThen, ite_self, and_self]
  have hthen2 : ∀ rq : Request,
      (cacheThen rq none (.fulfilled fetched)).promise = .fulfilled fetched := by
    intro rq
    simp only [cacheThen, ite_self]
  refine ⟨rfl, rfl, rfl, rfl, (hthen request none).1, (hthen request none).2, ?_, ?_, ?_, ?_⟩
  · unfold onFetch
    simp only [(hthen request none).1, (hthen request none).2]
    cases network <;> rfl
  · have h := hthen2 request
    unfold onFetch
    simp only [h]
  · cases cacheMatch with
    | rejected => rfl
    | fulfilled resp =>
      unfold onFetch
      simp only [(hthen _ resp).1, (hthen _ resp).2]
      cases resp <;> cases network <;> rfl
  · cases cacheMatch with
    | rejected => rfl
    | fulfilled resp =>
      unfold onFetch
      simp only [(hthen _ resp).1, (hthen _ resp).2]
      cases resp <;> cases network <;> rfl

/-- C17. When the cache lookup fails or misses and the network fetch fails, the
`catch` callback decides: for a navigation (`mode` is `navigate`) the request
is answered with the offline page, whose `Content-Type` header is `text/html`;
for any other request the promise resolves to `undefined` and the request
fails with a network error. -/
theorem offline_page_for_failed_navigation (request : Request)
    (network : Settled Response) :
    (request.mode = "navigate" →
      respondWith (onFetch request (.fulfilled none) .rejected).promise
        = .response offlineResponse ∧
      respondWith (onFetch request .rejected network).promise
        = .response offlineResponse) ∧
    (request.mode ≠ "navigate" →
      respondWith (onFetch request (.fulfilled none) .rejected).promise = .networkError ∧
      respondWith (onFetch request .rejected network).promise = .networkError) ∧
    offlineResponse.header "Content-Type" = some "text/html" ∧
    offlineResponse.status = 200 := by
  have hthen : (cacheThen request none .rejected).promise = .rejected := by
    simp only [cacheThen, ite_self]
  refine ⟨?_, ?_, by decide, rfl⟩
  · intro h
    constructor
    · unfold onFetch
      simp only [hthen, cacheCatch, h, if_true, respondWith]
    · simp only [onFetch, cacheCatch, h, if_true, respondWith]
  · intro h
    constructor
    · unfold onFetch
      simp only [hthen, cacheCatch, h, if_false, respondWith]
    · simp only [onFetch, cacheCatch, h, if_false, respondWith]

/-- Witness for C17: a failed navigation to the start page and a failed image
request. -/
theorem offline_page_for_failed_navigation_witness :
    respondWith (onFetch ⟨"/", "navigate"⟩ (.fulfilled none) .rejected).promise
      = .response offlineResponse ∧
    respondWith (onFetch ⟨"/static/logo.png", "no-cors"⟩ (.fulfilled none) .rejected).promise
      = .networkError :=
  ⟨((offline_page_for_failed_navigation ⟨"/", "navigate"⟩ .rejected).1 rfl).1,
    ((offline_page_for_failed_navigation ⟨"/static/logo.png", "no-cors"⟩ .rejected).2.1
      (by decide)).1⟩

theorem activate_eq_filter (cacheNames : List String) :
    activate cacheNames = cacheNames.filter (fun n => n == CACHE_NAME) := by
  unfold activate deletedOnActivate
  apply List.filter_congr
  intro n hn
  by_cases h : n = CACHE_NAME
  · subst h
    simp
  · simp [h, hn]

/-- C18 (as stated, refuted). When no stored bucket carries the current name,
activation leaves no bucket at all, not exactly one. -/
theorem activate_may_leave_no_bucket :
    activate [] = [] ∧
    activate ["medibot-ai-v1.0.0", "other-cache"] = [] ∧
    (activate ["medibot-ai-v1.0.0", "other-cache"]).length ≠ 1 := by
  refine ⟨by decide, by decide, by decide⟩

/-- C18 (amended). For every list of stored bucket names the activate handler
deletes every bucket whose name differs from `CACHE_NAME` and none named
`CACHE_NAME`, so the buckets left are exactly those named `CACHE_NAME`: that
one bucket when it was stored (bucket names being distinct), none when it was
not. After an install whose `caches.open` succeeded it is stored, and exactly
one bucket is left. -/
theorem activate_keeps_current_bucket (cacheNames : List String) (n : String) :
    (n ∈ cacheNames → n ≠ CACHE_NAME →
      n ∈ deletedOnActivate cacheNames ∧ n ∉ activate cacheNames) ∧
    CACHE_NAME ∉ deletedOnActivate cacheNames ∧
    (n ∈ activate cacheNames ↔ n ∈ cacheNames ∧ n = CACHE_NAME) ∧
    (cacheNames.Nodup → CACHE_NAME ∈ cacheNames → activate cacheNames = [CACHE_NAME]) ∧
    (CACHE_NAME ∉ cacheNames → activate cacheNames = []) ∧
    (cacheNames.Nodup → activate (install cacheNames true) = [CACHE_NAME]) := by
  have one : ∀ l : List String, l.Nodup → CACHE_NAME ∈ l → activate l = [CACHE_NAME] := by
    intro l hnd hmem
    rw [activate_eq_filter, List.filter_beq, List.count_eq_one_of_mem hnd hmem]
    rfl
  refine ⟨?_, ?_, ?_, one cacheNames, ?_, ?_⟩
  · intro hn hne
    constructor
    · simp [deletedOnActivate, hn, hne]
    · simp [activate_eq_filter, hne]
  · simp [deletedOnActivate]
  · simp [activate_eq_filter]
  · intro h
    rw [activate_eq_filter, List.filter_beq, List.count_eq_zero_of_not_mem h]
    rfl
  · intro hnd
    by_cases hmem : CACHE_NAME ∈ cacheNames
    · simp only [install, if_true, hmem]
      exact one _ hnd hmem
    · simp only [install, if_true, hmem, if_false]
      apply one
      · exact List.Nodup.append hnd (List.nodup_singleton _) (by simpa using hmem)
      · simp

/-- Witness for C18 (amended): an old bucket next to the current one. -/
theorem activate_keeps_current_bucket_witness :
    ["medibot-ai-v1.0.0", CACHE_NAME].Nodup ∧
    CACHE_NAME ∈ ["medibot-ai-v1.0.0", CACHE_NAME] ∧
    activate ["medibot-ai-v1.0.0", CACHE_NAME] = [CACHE_NAME] :=
  ⟨by decide, by decide,
    (activate_keeps_current_bucket ["medibot-ai-v1.0.0", CACHE_NAME] CACHE_NAME).2.2.2.1
      (by decide) (by decide)⟩

/-- Witness for C15 (amended): a path with two separators. -/
theorem path_source_fields_witness :
    (sourceFields (.path "docs/guides/who.pdf")).displayName = "who.pdf" ∧
    (sourceFields (.path "docs/guides/who.pdf")).credibilityScore = defaultCredibility :=
  ⟨by decide, (path_source_fields "docs/guides/who.pdf").2.2.2.1⟩


end MediBot
